import Mathlib

/-!
# NASA Management System (nms.cpp): record tables and their stores

A shallow embedding of the persistence-and-record-table code of `nms.cpp`.

Conventions of the embedding
* a `std::string` is a list of characters (`Str`);
* a C array `T a[]` is a function from positions to values (`Arr T`), an
  assignment `a[i] = v` is `Arr.set`;
* an `int` counter is an `Int` (the counts here stay far from the 32-bit limits);
* a `double` is a value of `Money`: a finite number, the negative zero, an
  infinity or a NaN, with the arithmetic and the comparisons of IEEE 754
  binary64 (every computed result is rounded to 53 significant bits, ties to
  even); `std::stod` and the extraction `f >> x` of a `double` are modelled on
  the characters they read;
* a store (CSV file) is `Option Str`: `none` when the file does not exist,
  `some text` otherwise; opening a file for writing is taken to succeed;
* `size_t` arithmetic is arithmetic modulo `2^64`, `std::string::npos` is `2^64-1`;
* console output, colours, `Sleep` and `pause` do not touch the tables and are
  left out; what the user types is passed to the functions as arguments.
-/

namespace NMS

/-! ## Basic types -/

abbrev Str := List Char

abbrev Arr (α : Type) := Nat → α


/-- Assignment `a[i] = v`. -/
def Arr.set {α : Type} (a : Arr α) (i : Nat) (v : α) : Arr α :=
  fun j => if j = i then v else a j

def MAX_USERS : Int := 200
def MAX_HIRES : Int := 200
def MAX_MISSIONS : Int := 200
def MAX_INVENTORY : Int := 500
def MAX_ASTRO : Int := 100
def MAX_LOGS : Int := 1000
def MAX_PLANETS : Int := 100

def INT_MAX : Int := 2147483647
def INT_MIN : Int := -2147483648

/-- The eight stores of the program, by file name. -/
structure Files where
  users : Option Str      -- nasa_users.csv
  hires : Option Str      -- nasa_hires.csv
  missions : Option Str   -- nasa_missions.csv
  inv : Option Str        -- nasa_inv.csv
  astro : Option Str      -- nasa_astro.csv
  planets : Option Str    -- nasa_planets.csv
  exo : Option Str        -- nasa_exo.csv
  logs : Option Str       -- nasa_logs.csv

/-- No store exists yet (first run). -/
def Files.absent : Files :=
  { users := none, hires := none, missions := none, inv := none,
    astro := none, planets := none, exo := none, logs := none }

/-! ## The type `double` -/

/-- A value of a C++ `double` (IEEE 754 binary64), the type of every amount in
the program: a finite number, the negative zero, an infinity or a NaN (one
value: its sign and payload are never looked at). `fin 0` is the positive zero.
The operations below round each result to the nearest `double`. -/
inductive Money where
  | fin (q : ℚ)
  | negZero
  | pinf
  | ninf
  | nan
  deriving DecidableEq

/-- The power `2^e` as a rational. -/
def pow2 (e : Int) : ℚ :=
  if 0 ≤ e then ((2 ^ e.toNat : Nat) : ℚ) else 1 / ((2 ^ (-e).toNat : Nat) : ℚ)

/-- Number of binary digits of `n`; the first argument bounds the recursion. -/
def bitLength : Nat → Nat → Nat
  | 0, _ => 0
  | fuel + 1, n => if n = 0 then 0 else bitLength fuel (n / 2) + 1

/-- The binary exponent of a positive rational `q`: the `e` with `2^e <= q < 2^(e+1)`. -/
def ilog2 (q : ℚ) : Int :=
  let n := q.num.natAbs
  let e0 : Int := (bitLength n n : Int) - (bitLength q.den q.den : Int)
  if pow2 e0 ≤ q then e0 else e0 - 1

/-- Rounding of a non-negative rational to the nearest natural number, a tie to
the even one. -/
def roundHalfEven (x : ℚ) : Nat :=
  let f : Nat := x.num.toNat / x.den
  let r : ℚ := x - (f : ℚ)
  if r < 1 / 2 then f else if 1 / 2 < r then f + 1 else if f % 2 = 0 then f else f + 1

/-- The `double` nearest to a non-negative rational `q` (round to nearest, ties
to even): 53 significant bits, exponent at least -1022 (subnormal numbers below
that), infinity from `2^1024` on. -/
def roundMagnitude (q : ℚ) : Money :=
  if q = 0 then Money.fin 0
  else
    let e := max (ilog2 q) (-1022)
    let quantum := pow2 (e - 52)
    let v : ℚ := (roundHalfEven (q / quantum) : ℚ) * quantum
    if pow2 1024 ≤ v then Money.pinf else Money.fin v

/-- Unary minus on a `double`. -/
def Money.neg : Money → Money
  | Money.fin q => if q = 0 then Money.negZero else Money.fin (-q)
  | Money.negZero => Money.fin 0
  | Money.pinf => Money.ninf
  | Money.ninf => Money.pinf
  | Money.nan => Money.nan

/-- The `double` nearest to the rational `q`; an exact zero is the positive zero. -/
def roundDbl (q : ℚ) : Money :=
  if 0 ≤ q then roundMagnitude q else (roundMagnitude (-q)).neg

/-- The number a finite `double` stands for (0 for the other values). -/
def Money.val : Money → ℚ
  | Money.fin q => q
  | _ => 0

/-- The sign bit of a `double` that is not a NaN. -/
def Money.signBit : Money → Bool
  | Money.fin q => decide (q < 0)
  | Money.negZero => true
  | Money.ninf => true
  | _ => false

/-- The `double` is an infinity. -/
def Money.isInf : Money → Bool
  | Money.pinf => true
  | Money.ninf => true
  | _ => false

/-- The `double` is a zero. -/
def Money.isZero : Money → Bool
  | Money.fin q => decide (q = 0)
  | Money.negZero => true
  | _ => false

/-- Addition of two `double` values. -/
def Money.add : Money → Money → Money
  | Money.nan, _ => Money.nan
  | _, Money.nan => Money.nan
  | Money.pinf, Money.ninf => Money.nan
  | Money.ninf, Money.pinf => Money.nan
  | Money.pinf, _ => Money.pinf
  | _, Money.pinf => Money.pinf
  | Money.ninf, _ => Money.ninf
  | _, Money.ninf => Money.ninf
  | Money.negZero, b => b
  | a, Money.negZero => a
  | Money.fin a, Money.fin b => roundDbl (a + b)

/-- Subtraction of two `double` values. -/
def Money.sub (a b : Money) : Money := a.add b.neg

/-- Division of two `double` values. -/
def Money.div (a b : Money) : Money :=
  if a = Money.nan ∨ b = Money.nan then Money.nan
  else
    let negative := xor a.signBit b.signBit
    if a.isInf then
      if b.isInf then Money.nan else if negative then Money.ninf else Money.pinf
    else if b.isInf then (if negative then Money.negZero else Money.fin 0)
    else if b.isZero then
      if a.isZero then Money.nan else if negative then Money.ninf else Money.pinf
    else if a.isZero then (if negative then Money.negZero else Money.fin 0)
    else roundDbl (a.val / b.val)

/-- Comparison `a <= b` of two `double` values: false when one is a NaN. -/
def Money.le : Money → Money → Bool
  | Money.nan, _ => false
  | _, Money.nan => false
  | Money.ninf, _ => true
  | _, Money.pinf => true
  | Money.pinf, _ => false
  | _, Money.ninf => false
  | a, b => decide (a.val ≤ b.val)

/-- Comparison `a < b` of two `double` values: false when one is a NaN. -/
def Money.lt : Money → Money → Bool
  | Money.nan, _ => false
  | _, Money.nan => false
  | Money.pinf, _ => false
  | _, Money.ninf => false
  | Money.ninf, _ => true
  | _, Money.pinf => true
  | a, b => decide (a.val < b.val)

/-- A whole-number literal (those of the program are small and exact). -/
instance (n : Nat) : OfNat Money n := ⟨Money.fin n⟩
instance : Add Money := ⟨Money.add⟩
instance : Sub Money := ⟨Money.sub⟩
instance : Div Money := ⟨Money.div⟩
instance : Neg Money := ⟨Money.neg⟩
instance : LE Money := ⟨fun a b => Money.le a b = true⟩
instance : LT Money := ⟨fun a b => Money.lt a b = true⟩
instance (a b : Money) : Decidable (a ≤ b) := inferInstanceAs (Decidable (Money.le a b = true))
instance (a b : Money) : Decidable (a < b) := inferInstanceAs (Decidable (Money.lt a b = true))

/-! ## Stream and string primitives of the C++ library -/

/-- Output of `f << n` for an `int`. -/
def showInt (n : Int) : Str :=
  if n < 0 then '-' :: Nat.toDigits 10 n.natAbs else Nat.toDigits 10 n.natAbs

/-- Characters skipped by formatted input (`std::isspace` in the C locale). -/
def isSpace (c : Char) : Bool :=
  c = ' ' || c = '\t' || c = '\n' || c = '\r' || c.toNat = 11 || c.toNat = 12

/-- Value of a run of decimal digits. -/
def digitsValue (ds : Str) : Nat :=
  ds.foldl (fun acc c => 10 * acc + (c.toNat - 48)) 0

/-- Formatted extraction `f >> n` of an `int` from the unread text of a stream:
skip white space, read an optional sign and the longest run of digits.
`none` is the failed extraction (no digit, or a value outside `int`): the
stream is then in the fail state and every later read on it fails. Otherwise
the value and the unread text are returned. -/
def readInt (s : Str) : Option (Int × Str) :=
  let s1 := s.dropWhile isSpace
  let signed : Bool × Str :=
    match s1 with
    | '-' :: r => (true, r)
    | '+' :: r => (false, r)
    | _ => (false, s1)
  let ds := signed.2.takeWhile Char.isDigit
  let rest := signed.2.dropWhile Char.isDigit
  if ds = [] then none
  else
    let v : Int := if signed.1 then -(digitsValue ds : Int) else (digitsValue ds : Int)
    if v < INT_MIN ∨ INT_MAX < v then none else some (v, rest)

/-- Unformatted skip `f.ignore(n, '\n')`: discard characters up to and including
the first newline, at most `n` of them. -/
def ignore : Nat → Str → Str
  | 0, s => s
  | _ + 1, [] => []
  | n + 1, c :: s => if c = '\n' then s else ignore n s

/-- Line read `getline(f, line)`: `none` when nothing is left to read (the call
fails and so does every later one), otherwise the characters before the next
newline and the text after that newline. -/
def getline (s : Str) : Option (Str × Str) :=
  match s with
  | [] => none
  | _ :: _ => some (s.takeWhile (fun c => c != '\n'), (s.dropWhile (fun c => c != '\n')).tail)

/-- The value of `std::string::npos` for a 64-bit `size_t`. -/
def NPOS : Nat := 2 ^ 64 - 1

/-- Addition of `size_t` values. -/
def addSz (a b : Nat) : Nat := (a + b) % 2 ^ 64

/-- Subtraction of `size_t` values. -/
def subSz (a b : Nat) : Nat := (a % 2 ^ 64 + 2 ^ 64 - b % 2 ^ 64) % 2 ^ 64

/-- Search `line.find(c, pos)`: the first position `>= pos` holding `c`, or `npos`. -/
def find (line : Str) (c : Char) (pos : Nat) : Nat :=
  let k := (line.drop pos).indexOf c
  if pos + k < line.length then pos + k else NPOS

/-- Slice `line.substr(pos, n)` for `pos <= line.size()` (the only way the loaders
call it: each position is 0 or one past a found comma): at most `n` characters from `pos` on. -/
def substr (line : Str) (pos n : Nat) : Str :=
  (line.drop pos).take n

/-! ## Interactive input -/

/-- Prompt `getInt(p, min, max)`. The argument lists the numbers typed at the
prompt, one per attempt (a line that is not a number behaves like a number out
of range: it is rejected and the prompt repeats). With `min > max` the function
returns `min` without reading. `none`: no attempt is ever accepted, the prompt
loop does not end. -/
def getInt (min max : Int) : List Int → Option Int
  | [] => if min > max then some min else none
  | v :: rest =>
    if min > max then some min
    else if min ≤ v ∧ v ≤ max then some v
    else getInt min max rest

/-- Line prompt `getInput`: the typed line with every `,` and `|` replaced by `;`. -/
def getInput (typed : Str) : Str :=
  typed.map (fun c => if c = ',' ∨ c = '|' then ';' else c)

/-- Check `isValidUsername`: 4 to 10 characters, each in `a-z` or `0-9`. -/
def isValidUsername (u : Str) : Bool :=
  if u.length < 4 ∨ u.length > 10 then false
  else u.all (fun c => ('a' ≤ c && c ≤ 'z') || ('0' ≤ c && c ≤ '9'))

/-- The four flags `small`, `large`, `digits`, `specialChar` of `isValidPassword`
after scanning the characters of `p`. -/
def passwordFlags (p : Str) : Bool × Bool × Bool × Bool :=
  p.foldl
    (fun f c =>
      if 'a' ≤ c ∧ c ≤ 'z' then (true, f.2.1, f.2.2.1, f.2.2.2)
      else if 'A' ≤ c ∧ c ≤ 'Z' then (f.1, true, f.2.2.1, f.2.2.2)
      else if '0' ≤ c ∧ c ≤ '9' then (f.1, f.2.1, true, f.2.2.2)
      else (f.1, f.2.1, f.2.2.1, true))
    (false, false, false, false)

/-- Check `isValidPassword`: at least 6 characters with a small letter, a capital
letter, a digit and one other character. -/
def isValidPassword (p : Str) : Bool :=
  if p.length < 6 then false
  else
    let f := passwordFlags p
    f.1 && f.2.1 && f.2.2.1 && f.2.2.2

/-! ## Activity log -/

/-- The log array of `main` and its counter. -/
structure Logs where
  actions : Arr Str
  count : Int

/-- Text written by `saveLogs` to `nasa_logs.csv`. -/
def saveLogsText (count : Int) (actions : Arr Str) : Str :=
  showInt count ++ '\n' :: (List.range count.toNat).flatMap (fun i => actions i ++ ['\n'])

/-- Function `saveLogs`. -/
def saveLogs (count : Int) (actions : Arr Str) (fs : Files) : Files :=
  { fs with logs := some (saveLogsText count actions) }

/-- Function `addLog`: append and save while below `MAX_LOGS`, otherwise nothing. -/
def addLog (action : Str) (l : Logs) (fs : Files) : Logs × Files :=
  if l.count < MAX_LOGS then
    (⟨l.actions.set l.count.toNat action, l.count + 1⟩,
      saveLogs (l.count + 1) (l.actions.set l.count.toNat action) fs)
  else (l, fs)

/-! ## Users -/

/-- The four parallel user arrays of `main` and their counter. -/
structure Users where
  usernames : Arr Str
  passwords : Arr Str
  roles : Arr Str
  departments : Arr Str
  count : Int

/-- The four fields of the user record at position `j`. -/
def Users.recordAt (t : Users) (j : Nat) : Str × Str × Str × Str :=
  (t.usernames j, t.passwords j, t.roles j, t.departments j)

/-- A user table with empty strings everywhere and no record. -/
def Users.empty : Users :=
  { usernames := fun _ => [], passwords := fun _ => [], roles := fun _ => [],
    departments := fun _ => [], count := 0 }

/-- One record line written by `saveUsers`. -/
def userLine (u p r d : Str) : Str :=
  u ++ ',' :: (p ++ ',' :: (r ++ ',' :: (d ++ ['\n'])))

/-- Text written by `saveUsers`: the count, then one line per record. -/
def saveUsersText (usernames passwords roles departments : Arr Str) (count : Int) : Str :=
  showInt count ++ '\n' ::
    (List.range count.toNat).flatMap
      (fun i => userLine (usernames i) (passwords i) (roles i) (departments i))

/-- Function `saveUsers` called with four arrays: rewrite `nasa_users.csv`. -/
def saveUsers (usernames passwords roles departments : Arr Str) (count : Int)
    (fs : Files) : Files :=
  { fs with users := some (saveUsersText usernames passwords roles departments count) }

/-- Function `saveUsers` called with `departments == nullptr`: the header is
written; the first record line then reads `departments[0]` through the null
pointer, which has no defined result (`none`). With no record to write the call
completes. -/
def saveUsers_nullDepartments (count : Int) (fs : Files) : Option Files :=
  if count ≤ 0 then some { fs with users := some (showInt count ++ ['\n']) } else none

/-- Body of the `if (getline(f, line))` branch of `loadUsers` at loop index `i`. -/
def loadUsersLine (line : Str) (i : Nat) (t : Users) : Users :=
  let p1 := find line ',' 0
  let p2 := find line ',' (addSz p1 1)
  let p3 := find line ',' (addSz p2 1)
  if p3 ≠ NPOS then
    { usernames := t.usernames.set i (substr line 0 p1)
      passwords := t.passwords.set i (substr line (addSz p1 1) (subSz (subSz p2 p1) 1))
      roles := t.roles.set i (substr line (addSz p2 1) (subSz (subSz p3 p2) 1))
      departments := t.departments.set i (substr line (addSz p3 1) NPOS)
      count := t.count + 1 }
  else t

/-- The `for (int i = 0; i < cnt && i < MAX_USERS; i++)` loop of `loadUsers`:
`n` iterations remain, `i` is the loop index, `f` the unread text. A failed
`getline` leaves the stream failed, so the remaining iterations do nothing. -/
def loadUsersLoop : Nat → Nat → Str → Users → Users
  | 0, _, _, t => t
  | n + 1, i, f, t =>
    match getline f with
    | some (line, rest) => loadUsersLoop n (i + 1) rest (loadUsersLine line i t)
    | none => loadUsersLoop n (i + 1) f t

/-- Function `loadUsers`: when the store opens, read the header count, clamp it,
reset the counter and decode up to that many lines. When the header extraction
fails the stream is in the fail state, so no line is read. When the store does
not open nothing is touched. -/
def loadUsers (fs : Files) (t : Users) : Users :=
  match fs.users with
  | none => t
  | some text =>
    match readInt text with
    | none => { t with count := 0 }
    | some (cnt, rest) =>
      let cnt := if cnt > MAX_USERS then MAX_USERS else cnt
      loadUsersLoop (min cnt MAX_USERS).toNat 0 (ignore 1000 rest) { t with count := 0 }

/-- Function `init_Users`: load, and seed three accounts when nothing was loaded. -/
def init_Users (t : Users) (fs : Files) : Users × Files :=
  let t1 := loadUsers fs t
  if t1.count = 0 then
    let usernames :=
      ((t1.usernames.set 0 "themystery".toList).set 1 "flight".toList).set 2 "eng".toList
    let passwords :=
      ((t1.passwords.set 0 "29July1958".toList).set 1 "flight123".toList).set 2 "engineer1".toList
    let roles := ((t1.roles.set 0 "admin".toList).set 1 "staff".toList).set 2 "staff".toList
    let departments :=
      ((t1.departments.set 0 "HQ".toList).set 1 "FLT".toList).set 2 "ENG".toList
    (⟨usernames, passwords, roles, departments, 3⟩,
      saveUsers usernames passwords roles departments 3 fs)
  else (t1, fs)

/-- The `for (int i = 0; i < count; i++)` scan of `signUp` for a taken username. -/
def usernameTaken (usernames : Arr Str) (count : Int) (username : Str) : Bool :=
  (List.range count.toNat).any (fun i => usernames i = username)

/-- Function `signUp`: the returned flag and the user table, log and stores after
the call. -/
def signUp (username password : Str) (t : Users) (l : Logs) (fs : Files) :
    Bool × Users × Logs × Files :=
  if !isValidUsername username || !isValidPassword password then (false, t, l, fs)
  else if t.count ≥ MAX_USERS then (false, t, l, fs)
  else if usernameTaken t.usernames t.count username then (false, t, l, fs)
  else
    let c := t.count.toNat
    let t1 : Users :=
      { usernames := t.usernames.set c username
        passwords := t.passwords.set c password
        roles := t.roles.set c "visitor".toList
        departments := t.departments.set c "GEN".toList
        count := t.count + 1 }
    let lf := addLog ("New Visitor Registered: ".toList ++ username) l fs
    (true, t1, lf.1, saveUsers t1.usernames t1.passwords t1.roles t1.departments t1.count lf.2)

/-! ## Admin panel: personnel -/

/-- Result of a call that may dereference a null pointer or wait for input for ever. -/
inductive Run (σ : Type) where
  /-- The call returns with this state. -/
  | ret (s : σ)
  /-- A null pointer is dereferenced; `s` is the state at that point. -/
  | fault (s : σ)
  /-- The prompt never receives an acceptable answer. -/
  | stuck

/-- The arguments of `admin_Personnel`: three arrays, the `departments` pointer
(`none` is `nullptr`) and the counter. -/
structure PersonnelArgs where
  usernames : Arr Str
  passwords : Arr Str
  roles : Arr Str
  departments : Option (Arr Str)
  userCount : Int

/-- The call `saveUsers(usernames, passwords, roles, departments, userCount)` made
by `admin_Personnel`, with a `departments` pointer that may be null. When the
call faults, the user store has been opened for writing, which empties it, and
holds the header line, which `endl` has flushed; the characters of the first
record line have not reached it. -/
def savePersonnel (a : PersonnelArgs) (l : Logs) (fs : Files) :
    Run (PersonnelArgs × Logs × Files) :=
  match a.departments with
  | some d => Run.ret (a, l, saveUsers a.usernames a.passwords a.roles d a.userCount fs)
  | none =>
    match saveUsers_nullDepartments a.userCount fs with
    | some fs1 => Run.ret (a, l, fs1)
    | none => Run.fault (a, l, { fs with users := some (showInt a.userCount ++ ['\n']) })

/-- The shift loop `for (int k = i; k < userCount - 1; k++)` of `admin_Personnel`:
`n` iterations remain, `k` is the loop index; `departments` is shifted only
under `if (departments)`. -/
def personnelShift : Nat → Nat → PersonnelArgs → PersonnelArgs
  | 0, _, a => a
  | n + 1, k, a =>
    personnelShift n (k + 1)
      { a with
        usernames := a.usernames.set k (a.usernames (k + 1))
        passwords := a.passwords.set k (a.passwords (k + 1))
        roles := a.roles.set k (a.roles (k + 1))
        departments := a.departments.map (fun d => d.set k (d (k + 1))) }

/-- Function `admin_Personnel`. `c` is the key pressed at the menu, `ids` what is
typed at the `ID:` prompt, `roleLine` the line typed at `New Role:`. -/
def admin_Personnel (c : Char) (ids : List Int) (roleLine : Str)
    (a : PersonnelArgs) (l : Logs) (fs : Files) : Run (PersonnelArgs × Logs × Files) :=
  if c = 'b' ∨ c = 'B' then Run.ret (a, l, fs)
  else
    match getInt 1 a.userCount ids with
    | none => Run.stuck
    | some id =>
      let i := (id - 1).toNat
      if c = 'e' ∨ c = 'E' then
        let a1 := { a with roles := a.roles.set i (getInput roleLine) }
        let lf := addLog ("Updated Role: ".toList ++ a1.usernames i) l fs
        savePersonnel a1 lf.1 lf.2
      else if c = 'd' ∨ c = 'D' then
        if a.usernames i = "themystery".toList then Run.ret (a, l, fs)
        else
          let lf := addLog ("Deleted User: ".toList ++ a.usernames i) l fs
          let a1 := personnelShift (a.userCount - 1 - (i : Int)).toNat i a
          savePersonnel { a1 with userCount := a1.userCount - 1 } lf.1 lf.2
      else Run.ret (a, l, fs)

/-- The `c == '4'` action of `dashboard_Admin`, seen from the user table of
`main`: `dashboard_Admin` has no `departments` parameter and calls
`admin_Personnel(usernames, passwords, roles, nullptr, userCount, ...)`, so the
`departments` array of `main` is not passed on. -/
def dashboard_Admin_personnel (c : Char) (ids : List Int) (roleLine : Str)
    (t : Users) (l : Logs) (fs : Files) : Run (Users × Logs × Files) :=
  match admin_Personnel c ids roleLine ⟨t.usernames, t.passwords, t.roles, none, t.count⟩ l fs with
  | Run.ret (a, l1, fs1) =>
    Run.ret (⟨a.usernames, a.passwords, a.roles, t.departments, a.userCount⟩, l1, fs1)
  | Run.fault (a, l1, fs1) =>
    Run.fault (⟨a.usernames, a.passwords, a.roles, t.departments, a.userCount⟩, l1, fs1)
  | Run.stuck => Run.stuck

/-! ## Inventory -/

/-- The five parallel inventory arrays of `main` and their counter. -/
structure Inventory where
  names : Arr Str
  cats : Arr Str
  qtys : Arr Money
  units : Arr Str
  costs : Arr Money
  count : Int

/-- The five fields of the inventory record at position `j`. -/
def Inventory.recordAt (t : Inventory) (j : Nat) : Str × Str × Money × Str × Money :=
  (t.names j, t.cats j, t.qtys j, t.units j, t.costs j)

/-- Text written by `saveInventory`; `showDouble` is `operator<<` for a `double`. -/
def saveInventoryText (showDouble : Money → Str) (count : Int)
    (names cats : Arr Str) (qtys : Arr Money) (units : Arr Str) (costs : Arr Money) : Str :=
  showInt count ++ '\n' ::
    (List.range count.toNat).flatMap
      (fun i => names i ++ ',' :: (cats i ++ ',' :: (showDouble (qtys i) ++ ',' ::
        (units i ++ ',' :: (showDouble (costs i) ++ ['\n'])))))

/-- Function `saveInventory`: rewrite `nasa_inv.csv`. -/
def saveInventory (showDouble : Money → Str) (count : Int)
    (names cats : Arr Str) (qtys : Arr Money) (units : Arr Str) (costs : Arr Money)
    (fs : Files) : Files :=
  { fs with inv := some (saveInventoryText showDouble count names cats qtys units costs) }

/-- The shift loop `for (int k = i; k < count - 1; k++)` of `eng_DeleteInventory`:
`n` iterations remain, `k` is the loop index. -/
def inventoryShift : Nat → Nat → Inventory → Inventory
  | 0, _, t => t
  | n + 1, k, t =>
    inventoryShift n (k + 1)
      { t with
        names := t.names.set k (t.names (k + 1))
        cats := t.cats.set k (t.cats (k + 1))
        qtys := t.qtys.set k (t.qtys (k + 1))
        units := t.units.set k (t.units (k + 1))
        costs := t.costs.set k (t.costs (k + 1)) }

/-- Function `eng_DeleteInventory`; `ids` is what is typed at the id prompt. -/
def eng_DeleteInventory (showDouble : Money → Str) (ids : List Int)
    (t : Inventory) (fs : Files) : Option (Inventory × Files) :=
  match getInt 1 t.count ids with
  | none => none
  | some id =>
    let i := (id - 1).toNat
    let t1 := inventoryShift (t.count - 1 - (i : Int)).toNat i t
    let t2 := { t1 with count := t1.count - 1 }
    some (t2, saveInventory showDouble t2.count t2.names t2.cats t2.qtys t2.units t2.costs fs)

/-! ## Missions -/

/-- The eight parallel mission arrays of `main` and their counter. -/
structure Missions where
  names : Arr Str
  codes : Arr Str
  dates : Arr Str
  vehicles : Arr Str
  status : Arr Str
  budgets : Arr Money
  requesters : Arr Str
  costs : Arr Money
  count : Int

/-- The eight fields of the mission record at position `j`, in the order name,
code, date, vehicle, status, budget, requester, cost. -/
def Missions.recordAt (t : Missions) (j : Nat) :
    Str × Str × Str × Str × Str × Money × Str × Money :=
  (t.names j, t.codes j, t.dates j, t.vehicles j, t.status j, t.budgets j,
    t.requesters j, t.costs j)

/-- Text written by `saveMissions(count, names, status, requesters, costs, budget, dates)`. -/
def saveMissionsText (showDouble : Money → Str) (count : Int)
    (names status requesters : Arr Str) (costs : Arr Money) (budget : Money)
    (dates : Arr Str) : Str :=
  showInt count ++ ',' :: (showDouble budget ++ '\n' ::
    (List.range count.toNat).flatMap
      (fun i => names i ++ ',' :: (status i ++ ',' :: (requesters i ++ ',' ::
        (showDouble (costs i) ++ ',' :: (dates i ++ ['\n']))))))

/-- Function `saveMissions`: rewrite `nasa_missions.csv`. -/
def saveMissions (showDouble : Money → Str) (count : Int)
    (names status requesters : Arr Str) (costs : Arr Money) (budget : Money)
    (dates : Arr Str) (fs : Files) : Files :=
  let text := saveMissionsText showDouble count names status requesters costs budget dates
  { fs with missions := some text }

/-- The shift loop `for (int k = i; k < count - 1; k++)` of `flight_DeleteMission`,
which receives and moves `names`, `status`, `dates`, `requesters` and `costs`. -/
def missionShift : Nat → Nat → Missions → Missions
  | 0, _, t => t
  | n + 1, k, t =>
    missionShift n (k + 1)
      { t with
        names := t.names.set k (t.names (k + 1))
        status := t.status.set k (t.status (k + 1))
        dates := t.dates.set k (t.dates (k + 1))
        requesters := t.requesters.set k (t.requesters (k + 1))
        costs := t.costs.set k (t.costs (k + 1)) }

/-- Function `flight_DeleteMission` as `dashboard_Flight` calls it, on the mission
table of `main`; `ids` is what is typed at the id prompt. -/
def flight_DeleteMission (ids : List Int) (t : Missions) : Option Missions :=
  match getInt 1 t.count ids with
  | none => none
  | some id =>
    let i := (id - 1).toNat
    let t1 := missionShift (t.count - 1 - (i : Int)).toNat i t
    some { t1 with count := t1.count - 1 }

/-- Function `admin_Missions` as `dashboard_Admin` calls it (its `budgets`
parameter is `missionBudgets`, which it also hands to `saveMissions` as the
cost column); `ids` is what is typed at the `Approve ID` prompt. -/
def admin_Missions (showDouble : Money → Str) (ids : List Int)
    (t : Missions) (agencyBudget : Money) (l : Logs) (fs : Files) :
    Option (Missions × Money × Logs × Files) :=
  match getInt 0 t.count ids with
  | none => none
  | some id =>
    if id = 0 then some (t, agencyBudget, l, fs)
    else
      let i := (id - 1).toNat
      if agencyBudget ≥ t.budgets i then
        let budget1 := agencyBudget - t.budgets i
        let t1 := { t with status := t.status.set i "Planned".toList }
        let lf := addLog ("Funded Mission: ".toList ++ t1.names i) l fs
        some (t1, budget1, lf.1,
          saveMissions showDouble t1.count t1.names t1.status t1.requesters t1.budgets
            budget1 t1.dates lf.2)
      else some (t, agencyBudget, l, fs)

/-! ## Decimal numbers: `stod`, `f >> double`, `getDouble` -/

/-- An optional exponent part in front of `s`: the exponent mark (`e` or `p`, in
either case), an optional sign and digits; the exponent and the text after it.
Without a digit after the mark there is no exponent part. -/
def readExponent (mark : Char) (s : Str) : Option (Int × Str) :=
  match s with
  | c :: r =>
    if c.toLower = mark then
      let signed : Bool × Str :=
        match r with
        | '-' :: r1 => (true, r1)
        | '+' :: r1 => (false, r1)
        | _ => (false, r)
      let ds := signed.2.takeWhile Char.isDigit
      if ds = [] then none
      else
        some (if signed.1 then -(digitsValue ds : Int) else (digitsValue ds : Int),
          signed.2.dropWhile Char.isDigit)
    else none
  | [] => none

/-- The number `m * 10^e`. -/
def scale10 (m : ℚ) (e : Int) : ℚ :=
  if 0 ≤ e then m * ((10 ^ e.toNat : Nat) : ℚ) else m / ((10 ^ (-e).toNat : Nat) : ℚ)

/-- An optional fraction part in front of `s`: a point and the digits after it;
the digits and the text after them. Without a point nothing is read. -/
def readFraction (digit : Char → Bool) : Str → Str × Str
  | '.' :: r => (r.takeWhile digit, r.dropWhile digit)
  | r => ([], r)

/-- The longest unsigned decimal number in front of `s`: digits with an optional
fraction, then an optional exponent; its exact value and the text after it.
`none` when no digit is there. -/
def parseDecimal (s : Str) : Option (ℚ × Str) :=
  let ints := s.takeWhile Char.isDigit
  let r1 := s.dropWhile Char.isDigit
  let fracRest := readFraction Char.isDigit r1
  if ints = [] ∧ fracRest.1 = [] then none
  else
    let mantissa : ℚ :=
      (digitsValue (ints ++ fracRest.1) : ℚ) / ((10 ^ fracRest.1.length : Nat) : ℚ)
    match readExponent 'e' fracRest.2 with
    | some (e, r) => some (scale10 mantissa e, r)
    | none => some (mantissa, fracRest.2)

/-- Value of a hexadecimal digit. -/
def hexDigit (c : Char) : Option Nat :=
  if '0' ≤ c ∧ c ≤ '9' then some (c.toNat - 48)
  else if 'a' ≤ c ∧ c ≤ 'f' then some (c.toNat - 87)
  else if 'A' ≤ c ∧ c ≤ 'F' then some (c.toNat - 55)
  else none

/-- Value of a run of hexadecimal digits. -/
def hexValue (ds : Str) : Nat :=
  ds.foldl (fun acc c => 16 * acc + (hexDigit c).getD 0) 0

/-- The longest unsigned hexadecimal number `0x...` in front of `s`: hexadecimal
digits with an optional fraction, then an optional binary exponent `p`; its
exact value and the text after it. `none` when `s` does not start with `0x`
and a hexadecimal digit. -/
def parseHex (s : Str) : Option (ℚ × Str) :=
  match s with
  | '0' :: x :: r =>
    if x = 'x' ∨ x = 'X' then
      let isHex : Char → Bool := fun c => (hexDigit c).isSome
      let ints := r.takeWhile isHex
      let r1 := r.dropWhile isHex
      let fracRest := readFraction isHex r1
      if ints = [] ∧ fracRest.1 = [] then none
      else
        let mantissa : ℚ :=
          (hexValue (ints ++ fracRest.1) : ℚ) / ((16 ^ fracRest.1.length : Nat) : ℚ)
        match readExponent 'p' fracRest.2 with
        | some (e, r3) => some (mantissa * pow2 e, r3)
        | none => some (mantissa, fracRest.2)
    else none
  | _ => none

/-- The text after leading white space and an optional sign, with the sign read. -/
def readSign (s : Str) : Bool × Str :=
  match s.dropWhile isSpace with
  | '-' :: r => (true, r)
  | '+' :: r => (false, r)
  | r => (false, r)

/-- The `double` with the given sign and magnitude. -/
def signedDbl (negative : Bool) (q : ℚ) : Money :=
  if negative then (roundMagnitude q).neg else roundMagnitude q

/-- The range error of `strtod` (`errno == ERANGE`, as the GNU C library sets
it) for a number of magnitude `q`: the number rounds to an infinity, or it is
not zero, lies below the normal range after rounding and is not a subnormal
`double` exactly. -/
def rangeError (q : ℚ) : Bool :=
  roundMagnitude q = Money.pinf ||
    (decide (q ≠ 0) && decide (q < pow2 (-1022) - pow2 (-1076)) &&
      decide ((q * pow2 1074).den ≠ 1))

/-- Library function `std::stod(s)`, which converts with `strtod`: after white
space and an optional sign it reads `inf` or `nan` (in any case), a hexadecimal
number or a decimal number, whatever follows. `none`: `stod` throws, either
`invalid_argument` (nothing to convert) or `out_of_range` (range error). -/
def stod (s : Str) : Option Money :=
  let signed := readSign s
  if (signed.2.take 3).map Char.toLower = "inf".toList then
    some (if signed.1 then Money.ninf else Money.pinf)
  else if (signed.2.take 3).map Char.toLower = "nan".toList then some Money.nan
  else
    let number : Option (ℚ × Str) :=
      match parseHex signed.2 with
      | some r => some r
      | none => parseDecimal signed.2
    match number with
    | some (q, _) => if rangeError q then none else some (signedDbl signed.1 q)
    | none => none

/-- Function `safeStod`: the value of `stod(s)`, or 0 when `stod` throws. -/
def safeStod (s : Str) : Money :=
  match stod s with
  | some v => v
  | none => 0

/-- Outcome of a formatted extraction `f >> x`. -/
inductive Extraction (α : Type) where
  | value (v : α) (rest : Str)   -- success: the value read and the unread text
  | failure (v : α)               -- the stream fails and `x` is set to `v`
  | nothing                        -- only white space was left: the stream fails, `x` keeps its content
  deriving DecidableEq

/-- The largest finite `double`. -/
def DBL_MAX : ℚ := (2 ^ 53 - 1) * 2 ^ 971

/-- Formatted extraction `f >> bud` of a `double`, as `std::num_get` of the GNU
C++ library does it: skip white space; collect an optional sign, digits with an
optional fraction and, when a digit has been read and an `e` follows, that `e`
with an optional sign and digits; then convert the collected characters. The
extraction fails with value 0 when they are not a complete number (no digit,
or an `e` without exponent digits) and with the largest finite value of that
sign when the number rounds to an infinity. -/
def readDouble (s : Str) : Extraction Money :=
  if s.dropWhile isSpace = [] then Extraction.nothing
  else
    let signed := readSign s
    let ints := signed.2.takeWhile Char.isDigit
    let r1 := signed.2.dropWhile Char.isDigit
    let fracRest := readFraction Char.isDigit r1
    if ints = [] ∧ fracRest.1 = [] then Extraction.failure 0
    else
      let mantissa : ℚ :=
        (digitsValue (ints ++ fracRest.1) : ℚ) / ((10 ^ fracRest.1.length : Nat) : ℚ)
      let marked : Bool :=
        match fracRest.2 with
        | c :: _ => c = 'e' || c = 'E'
        | [] => false
      let number : Option (ℚ × Str) :=
        if marked then
          match readExponent 'e' fracRest.2 with
          | some (e, r) => some (scale10 mantissa e, r)
          | none => none
        else some (mantissa, fracRest.2)
      match number with
      | none => Extraction.failure 0
      | some (q, rest) =>
        if roundMagnitude q = Money.pinf then
          Extraction.failure (signedDbl signed.1 DBL_MAX)
        else Extraction.value (signedDbl signed.1 q) rest

/-- Formatted extraction `f >> c` of a `char`: skip white space, take one character. -/
def readChar (s : Str) : Option (Char × Str) :=
  match s.dropWhile isSpace with
  | c :: r => some (c, r)
  | [] => none

/-- Prompt `getDouble(p, min, max)`: the first typed number inside the range;
`none` when no attempt is ever accepted. -/
def getDouble (min max : Money) : List Money → Option Money
  | [] => none
  | v :: rest => if min ≤ v ∧ v ≤ max then some v else getDouble min max rest

/-! ## Hiring and the astronaut roster -/

/-- The six parallel hiring arrays of `main` and their counter. -/
structure Hires where
  users : Arr Str
  roles : Arr Str
  exp : Arr Str
  status : Arr Str
  names : Arr Str
  edu : Arr Str
  count : Int

/-- The three parallel astronaut arrays of `main` and their counter. -/
structure Astronauts where
  names : Arr Str
  ranks : Arr Str
  status : Arr Str
  count : Int

/-- Text written by `saveHires`. -/
def saveHiresText (h : Hires) : Str :=
  showInt h.count ++ '\n' ::
    (List.range h.count.toNat).flatMap
      (fun i => h.users i ++ ',' :: (h.roles i ++ ',' :: (h.exp i ++ ',' ::
        (h.status i ++ ',' :: (h.names i ++ ',' :: (h.edu i ++ ['\n']))))))

/-- Function `saveHires`: rewrite `nasa_hires.csv`. -/
def saveHires (h : Hires) (fs : Files) : Files :=
  { fs with hires := some (saveHiresText h) }

/-- Text written by `saveAstronauts`. -/
def saveAstronautsText (a : Astronauts) : Str :=
  showInt a.count ++ '\n' ::
    (List.range a.count.toNat).flatMap
      (fun i => a.names i ++ ',' :: (a.ranks i ++ ',' :: (a.status i ++ ['\n'])))

/-- Function `saveAstronauts`: rewrite `nasa_astro.csv`. -/
def saveAstronauts (a : Astronauts) (fs : Files) : Files :=
  { fs with astro := some (saveAstronautsText a) }

/-- The scan of `career_Menu` for a pending application of `username`. -/
def alreadyApplied (h : Hires) (username : Str) : Bool :=
  (List.range h.count.toNat).any
    (fun i => h.users i = username && h.status i = "Pending".toList)

/-- The `c == '1'` (apply) action of one round of `career_Menu`. `full`, `edu` and
`exp` are the lines typed at the three prompts, `ids` what is typed at the
position prompt. -/
def career_Apply (username userRole : Str) (full edu exp : Str) (ids : List Int)
    (h : Hires) (l : Logs) (fs : Files) : Option (Hires × Logs × Files) :=
  if userRole = "admin".toList then some (h, l, fs)
  else if h.count ≥ MAX_HIRES then some (h, l, fs)
  else if alreadyApplied h username then some (h, l, fs)
  else
    match getInt 1 3 ids with
    | none => none
    | some r =>
      let role : Str :=
        if r = 1 then "astronaut".toList
        else if r = 2 then "engineer".toList else "scientist".toList
      let c := h.count.toNat
      let h1 : Hires :=
        { users := h.users.set c username
          roles := h.roles.set c role
          exp := h.exp.set c (getInput exp)
          names := h.names.set c (getInput full)
          edu := h.edu.set c (getInput edu)
          status := h.status.set c "Pending".toList
          count := h.count + 1 }
      let lf := addLog ("Applied: ".toList ++ role) l (saveHires h1 fs)
      some (h1, lf.1, lf.2)

/-- The search loop of `admin_Hiring`: the first `k < userLimit` whose username is
the applicant. -/
def findApplicant (usernames : Arr Str) (userLimit : Int) (applicant : Str) : Option Nat :=
  (List.range userLimit.toNat).find? (fun k => usernames k = applicant)

/-- Function `admin_Hiring`. It receives the `usernames` and `roles` arrays and the
user count by value, the hiring and astronaut tables and the log; the returned
tuple holds the `roles` array, the two tables, the log and the stores after the
call. `c` is the key pressed, `ids` what is typed at the id prompt. -/
def admin_Hiring (c : Char) (ids : List Int) (usernames roles : Arr Str) (userLimit : Int)
    (h : Hires) (a : Astronauts) (l : Logs) (fs : Files) :
    Option (Arr Str × Hires × Astronauts × Logs × Files) :=
  if c = 'b' ∨ c = 'B' then some (roles, h, a, l, fs)
  else if c = 'a' ∨ c = 'A' then
    match getInt 1 h.count ids with
    | none => none
    | some id =>
      let idx := (id - 1).toNat
      match findApplicant usernames userLimit (h.users idx) with
      | none => some (roles, h, a, l, fs)
      | some k =>
        let roles1 := roles.set k (h.roles idx)
        let h1 := { h with status := h.status.set idx "Approved".toList }
        let lf := addLog ("Hired ".toList ++ h1.users idx) l fs
        if h1.roles idx = "astronaut".toList then
          if a.count < MAX_ASTRO then
            let n := a.count.toNat
            let a1 : Astronauts :=
              { names := a.names.set n (h1.names idx)
                ranks := a.ranks.set n "Recruit".toList
                status := a.status.set n "Active".toList
                count := a.count + 1 }
            some (roles1, h1, a1, lf.1, saveHires h1 (saveAstronauts a1 lf.2))
          else some (roles1, h1, a, lf.1, saveHires h1 lf.2)
        else some (roles1, h1, a, lf.1, saveHires h1 lf.2)
  else if c = 'r' ∨ c = 'R' then
    match getInt 1 h.count ids with
    | none => none
    | some id =>
      let idx := (id - 1).toNat
      let h1 := { h with status := h.status.set idx "Rejected".toList }
      some (roles, h1, a, l, saveHires h1 fs)
  else some (roles, h, a, l, fs)

/-! ## Loading the inventory and the missions -/

/-- The value held by the local `int cnt` after `f >> cnt` on the unread text `s`:
the number read; 0 when no digit is found; the nearest `int` limit when the
number is out of range; and the old, uninitialised content `junk` of `cnt` when
only white space is left, since the extraction then does not assign. -/
def readIntLeaves (junk : Int) (s : Str) : Int :=
  let s1 := s.dropWhile isSpace
  if s1 = [] then junk
  else
    let signed : Bool × Str :=
      match s1 with
      | '-' :: r => (true, r)
      | '+' :: r => (false, r)
      | _ => (false, s1)
    let ds := signed.2.takeWhile Char.isDigit
    if ds = [] then 0
    else
      let v : Int := if signed.1 then -(digitsValue ds : Int) else (digitsValue ds : Int)
      if v < INT_MIN then INT_MIN else if INT_MAX < v then INT_MAX else v

/-- Body of the `if (getline(f, line))` branch of `loadInventory` at loop index `i`. -/
def loadInventoryLine (line : Str) (i : Nat) (t : Inventory) : Inventory :=
  let p1 := find line ',' 0
  let p2 := find line ',' (addSz p1 1)
  let p3 := find line ',' (addSz p2 1)
  let p4 := find line ',' (addSz p3 1)
  if p4 ≠ NPOS then
    { names := t.names.set i (substr line 0 p1)
      cats := t.cats.set i (substr line (addSz p1 1) (subSz (subSz p2 p1) 1))
      qtys := t.qtys.set i (safeStod (substr line (addSz p2 1) (subSz (subSz p3 p2) 1)))
      units := t.units.set i (substr line (addSz p3 1) (subSz (subSz p4 p3) 1))
      costs := t.costs.set i (safeStod (substr line (addSz p4 1) NPOS))
      count := t.count + 1 }
  else t

/-- The `for (int i = 0; i < cnt; i++)` loop of `loadInventory`. -/
def loadInventoryLoop : Nat → Nat → Str → Inventory → Inventory
  | 0, _, _, t => t
  | n + 1, i, f, t =>
    match getline f with
    | some (line, rest) => loadInventoryLoop n (i + 1) rest (loadInventoryLine line i t)
    | none => loadInventoryLoop n (i + 1) f t

/-- Function `loadInventory`. The counter is reset only under `if (cnt > 0)`.
`junk` is the uninitialised content of the local `cnt`. After a failed header
extraction no line can be read. -/
def loadInventory (junk : Int) (fs : Files) (t : Inventory) : Inventory :=
  match fs.inv with
  | none => t
  | some text =>
    match readInt text with
    | some (cnt, rest) =>
      loadInventoryLoop cnt.toNat 0 (ignore 1000 rest)
        (if cnt > 0 then { t with count := 0 } else t)
    | none => if readIntLeaves junk text > 0 then { t with count := 0 } else t

/-- Function `eng_AddInventory`. `name`, `cat` and `unit` are the typed lines,
`qtys` and `costs` what is typed at the two number prompts. -/
def eng_AddInventory (showDouble : Money → Str) (name cat unit : Str)
    (qtys costs : List Money) (t : Inventory) (fs : Files) : Option (Inventory × Files) :=
  if t.count ≥ MAX_INVENTORY then some (t, fs)
  else
    match getDouble 1 10000 qtys with
    | none => none
    | some q =>
      match getDouble (1 / 1000) 100 costs with
      | none => none
      | some c =>
        let k := t.count.toNat
        let t1 : Inventory :=
          { names := t.names.set k (getInput name)
            cats := t.cats.set k (getInput cat)
            qtys := t.qtys.set k q
            units := t.units.set k (getInput unit)
            costs := t.costs.set k c
            count := t.count + 1 }
        some (t1, saveInventory showDouble t1.count t1.names t1.cats t1.qtys t1.units t1.costs fs)

/-- Body of the `if (getline(f, line))` branch of `loadMissions` at loop index `i`. -/
def loadMissionsLine (line : Str) (i : Nat) (t : Missions) : Missions :=
  let p1 := find line ',' 0
  let p2 := find line ',' (addSz p1 1)
  let p3 := find line ',' (addSz p2 1)
  let p4 := find line ',' (addSz p3 1)
  if p4 ≠ NPOS then
    let cost := safeStod (substr line (addSz p3 1) (subSz (subSz p4 p3) 1))
    { names := t.names.set i (substr line 0 p1)
      status := t.status.set i (substr line (addSz p1 1) (subSz (subSz p2 p1) 1))
      requesters := t.requesters.set i (substr line (addSz p2 1) (subSz (subSz p3 p2) 1))
      costs := t.costs.set i cost
      dates := t.dates.set i (substr line (addSz p4 1) NPOS)
      codes := t.codes.set i ("MSN-".toList ++ showInt ((i : Int) + 101))
      vehicles := t.vehicles.set i "TBD".toList
      budgets := t.budgets.set i cost
      count := t.count + 1 }
  else t

/-- The `for (int i = 0; i < cnt && i < MAX_MISSIONS; i++)` loop of `loadMissions`. -/
def loadMissionsLoop : Nat → Nat → Str → Missions → Missions
  | 0, _, _, t => t
  | n + 1, i, f, t =>
    match getline f with
    | some (line, rest) => loadMissionsLoop n (i + 1) rest (loadMissionsLine line i t)
    | none => loadMissionsLoop n (i + 1) f t

/-- Function `loadMissions`: the mission table and the agency budget after the
call. When the store opens the counter is reset and the agency budget is
overwritten with the local `bud`; `bud0` is the uninitialised content of `bud`,
which is what it still holds when the header extraction `f >> cnt >> c >> bud`
stops before assigning it. When the extraction of `bud` fails the stream is in
the fail state: `ignore` and every `getline` do nothing, so no line is loaded. -/
def loadMissions (bud0 : Money) (fs : Files) (t : Missions) (agencyBudget : Money) :
    Missions × Money :=
  match fs.missions with
  | none => (t, agencyBudget)
  | some text =>
    match readInt text with
    | none => ({ t with count := 0 }, bud0)
    | some (cnt, r1) =>
      match readChar r1 with
      | none => ({ t with count := 0 }, bud0)
      | some (_, r2) =>
        match readDouble r2 with
        | Extraction.nothing => ({ t with count := 0 }, bud0)
        | Extraction.failure bud => ({ t with count := 0 }, bud)
        | Extraction.value bud r3 =>
          (loadMissionsLoop (min cnt MAX_MISSIONS).toNat 0 (ignore 1000 r3)
            { t with count := 0 }, bud)

/-- Function `init_Missions`: seed three missions unless the table has records. -/
def init_Missions (t : Missions) : Missions :=
  if t.count > 0 then t
  else
    { names := ((t.names.set 0 "Freedom 7".toList).set 1 "Liberty Bell 7".toList).set 2
        "Friendship 7".toList
      codes := ((t.codes.set 0 "MR-3".toList).set 1 "MR-4".toList).set 2 "MA-6".toList
      vehicles :=
        ((t.vehicles.set 0 "Redstone".toList).set 1 "Redstone".toList).set 2 "Atlas".toList
      status :=
        ((t.status.set 0 "Success".toList).set 1 "Success".toList).set 2 "Success".toList
      budgets := ((t.budgets.set 0 (1 / 10)).set 1 (1 / 10)).set 2 (2 / 10)
      requesters :=
        ((t.requesters.set 0 "History".toList).set 1 "History".toList).set 2 "History".toList
      costs := ((t.costs.set 0 (1 / 10)).set 1 (1 / 10)).set 2 (2 / 10)
      dates :=
        ((t.dates.set 0 "1961-05-05".toList).set 1 "1961-07-21".toList).set 2
          "1962-02-20".toList
      count := 3 }

/-- The mission part of `init_Database`: `init_Missions`, then `loadMissions`. -/
def init_Database_missions (bud0 : Money) (fs : Files) (t : Missions) (agencyBudget : Money) :
    Missions × Money :=
  loadMissions bud0 fs (init_Missions t) agencyBudget

/-- The equipment loop of `flight_Request`: each round asks `getInt("Choice", 1, 4)`;
1, 2 and 3 add 0.1, 0.5 and 0.2 to the cost, 4 ends the loop, anything else is
asked again. `none`: the typed answers end before a 4. -/
def requisition (totalCost : Money) : List Int → Option Money
  | [] => none
  | op :: rest =>
    if op = 1 then requisition (totalCost + 1 / 10) rest
    else if op = 2 then requisition (totalCost + 1 / 2) rest
    else if op = 3 then requisition (totalCost + 2 / 10) rest
    else if op = 4 then some totalCost
    else requisition totalCost rest

/-- Function `flight_Request`. `name` and `vehicle` are the typed lines, `ops` the
answers at the equipment prompt, `today` the date string of `strftime`. -/
def flight_Request (username name vehicle : Str) (ops : List Int) (today : Str)
    (t : Missions) (l : Logs) (fs : Files) : Option (Missions × Logs × Files) :=
  if t.count ≥ MAX_MISSIONS then some (t, l, fs)
  else if getInput name = "0".toList then some (t, l, fs)
  else
    match requisition (1 / 2) ops with
    | none => none
    | some totalCost =>
      let k := t.count.toNat
      let t1 : Missions :=
        { names := t.names.set k (getInput name)
          codes := t.codes.set k ("REQ-".toList ++ showInt (t.count + 100))
          dates := t.dates.set k today
          vehicles := t.vehicles.set k (getInput vehicle)
          status := t.status.set k "Pending".toList
          budgets := t.budgets.set k totalCost
          costs := t.costs.set k totalCost
          requesters := t.requesters.set k username
          count := t.count + 1 }
      let lf := addLog ("Mission Requested: ".toList ++ getInput name) l fs
      some (t1, lf.1, lf.2)

/-! ## Launch, sign-in, session -/

/-- Function `sim_Launch`. `ids` is what is typed at the id prompt, `draws k` the
value of the `k`-th call of `rand()`. The four system checks fail when one of
the first four draws is a multiple of 10 (the loop returns at the first one). -/
def sim_Launch (showDouble : Money → Str) (ids : List Int) (draws : Nat → Nat)
    (t : Missions) (agencyBudget : Money) (l : Logs) (fs : Files) :
    Option (Missions × Logs × Files) :=
  if t.count = 0 then some (t, l, fs)
  else
    match getInt 1 t.count ids with
    | none => none
    | some id =>
      let idx := (id - 1).toNat
      if t.status idx = "Pending".toList then some (t, l, fs)
      else if (List.range 4).any (fun k => draws k % 10 = 0) then
        let t1 := { t with status := t.status.set idx "Failure".toList }
        let lf := addLog ("Launch Failure: ".toList ++ t1.names idx) l fs
        some (t1, lf.1,
          saveMissions showDouble t1.count t1.names t1.status t1.requesters t1.costs
            agencyBudget t1.dates lf.2)
      else
        let t1 := { t with status := t.status.set idx "Success".toList }
        let lf := addLog ("Launch Success: ".toList ++ t1.names idx) l fs
        some (t1, lf.1,
          saveMissions showDouble t1.count t1.names t1.status t1.requesters t1.costs
            agencyBudget t1.dates lf.2)

/-- The loop `for (int i = 0; i < count; i++)` of `signIn` with its `break`: `n`
iterations remain, `i` is the loop index; the result is the value of `idx`. -/
def signInLoop (username password : Str) (usernames passwords : Arr Str) :
    Nat → Nat → Int
  | 0, _ => -1
  | n + 1, i =>
    if usernames i = username ∧ passwords i = password then (i : Int)
    else signInLoop username password usernames passwords n (i + 1)

/-- Function `signIn`: the returned index, together with the two arrays and the
log it receives, which it only reads. -/
def signIn (username password : Str) (usernames passwords : Arr Str) (count : Int)
    (l : Logs) : Int × Arr Str × Arr Str × Logs :=
  (signInLoop username password usernames passwords count.toNat 0, usernames, passwords, l)

/-- One admin-panel personnel action inside a `dashboard_Main` session, seen from
`main`. `main` passes `userCount` to `dashboard_Main` by value (`int userLimit`);
`dashboard_Admin` and `admin_Personnel` update that copy through `int &`. The
arrays are shared, so after the session `main` holds the changed arrays and its
own, unchanged `userCount`. -/
def dashboard_Main_personnel (c : Char) (ids : List Int) (roleLine : Str)
    (t : Users) (l : Logs) (fs : Files) : Run (Users × Logs × Files) :=
  match dashboard_Admin_personnel c ids roleLine t l fs with
  | Run.ret (t1, l1, fs1) => Run.ret ({ t1 with count := t.count }, l1, fs1)
  | Run.fault (t1, l1, fs1) => Run.fault ({ t1 with count := t.count }, l1, fs1)
  | Run.stuck => Run.stuck

/-! ## Sample data used in the evaluations below -/

/-- A field that can be written to a store line: no separator, no line end. -/
def cleanField (s : Str) : Prop := ',' ∉ s ∧ '\n' ∉ s

/-- The record line of user `j` without its line end. -/
def userFields (s : Users) (j : Nat) : Str :=
  s.usernames j ++ ',' :: (s.passwords j ++ ',' :: (s.roles j ++ ',' :: s.departments j))

/-- The record lines of users `i .. i+n-1` as `saveUsers` writes them. -/
def userRows (s : Users) (i n : Nat) : Str :=
  (List.range' i n).flatMap
    (fun j => userLine (s.usernames j) (s.passwords j) (s.roles j) (s.departments j))

/-- Shifting an array down by one from position `k`, `n` times: the effect of a
delete loop on one column. -/
def shiftArr {α : Type} : Nat → Nat → Arr α → Arr α
  | 0, _, a => a
  | n + 1, k, a => shiftArr n (k + 1) (a.set k (a (k + 1)))

/-- The three seed users, in a table of otherwise empty strings. -/
def sampleUsers : Users :=
  { usernames := fun j =>
      if j = 0 then "themystery".toList else if j = 1 then "flight".toList
      else if j = 2 then "eng".toList else []
    passwords := fun j =>
      if j = 0 then "29July1958".toList else if j = 1 then "flight123".toList
      else if j = 2 then "engineer1".toList else []
    roles := fun j =>
      if j = 0 then "admin".toList else if j = 1 then "staff".toList
      else if j = 2 then "staff".toList else []
    departments := fun j =>
      if j = 0 then "HQ".toList else if j = 1 then "FLT".toList
      else if j = 2 then "ENG".toList else []
    count := 3 }

/-- An empty log. -/
def Logs.empty : Logs := ⟨fun _ => [], 0⟩

/-- The three seed missions of `init_Missions`, in a table of otherwise empty
strings and zero amounts. -/
def seedMissions : Missions :=
  { names := fun j =>
      if j = 0 then "Freedom 7".toList else if j = 1 then "Liberty Bell 7".toList
      else if j = 2 then "Friendship 7".toList else []
    codes := fun j =>
      if j = 0 then "MR-3".toList else if j = 1 then "MR-4".toList
      else if j = 2 then "MA-6".toList else []
    dates := fun j =>
      if j = 0 then "1961-05-05".toList else if j = 1 then "1961-07-21".toList
      else if j = 2 then "1962-02-20".toList else []
    vehicles := fun j =>
      if j = 0 then "Redstone".toList else if j = 1 then "Redstone".toList
      else if j = 2 then "Atlas".toList else []
    status := fun j => if j < 3 then "Success".toList else []
    budgets := fun j => if j = 0 then 1 / 10 else if j = 1 then 1 / 10 else if j = 2 then 2 / 10 else 0
    requesters := fun j => if j < 3 then "History".toList else []
    costs := fun j => if j = 0 then 1 / 10 else if j = 1 then 1 / 10 else if j = 2 then 2 / 10 else 0
    count := 3 }

/-- The seed missions followed by one requested mission awaiting funding. -/
def pendingMissions : Missions :=
  { seedMissions with
    names := seedMissions.names.set 3 "Artemis".toList
    codes := seedMissions.codes.set 3 "REQ-103".toList
    dates := seedMissions.dates.set 3 "2026-01-15".toList
    vehicles := seedMissions.vehicles.set 3 "SLS".toList
    status := seedMissions.status.set 3 "Pending".toList
    budgets := seedMissions.budgets.set 3 (7 / 10)
    requesters := seedMissions.requesters.set 3 "flight".toList
    costs := seedMissions.costs.set 3 (7 / 10)
    count := 4 }

/-- An inventory table with no record. -/
def Inventory.empty : Inventory :=
  { names := fun _ => [], cats := fun _ => [], qtys := fun _ => 0, units := fun _ => [],
    costs := fun _ => 0, count := 0 }

/-- Three inventory records. -/
def sampleInventory : Inventory :=
  { names := fun j =>
      if j = 0 then "Hydrazine Fuel".toList else if j = 1 then "LOX Tank".toList
      else if j = 2 then "Heat Shield Tile".toList else []
    cats := fun j =>
      if j = 0 then "Propulsion".toList else if j = 1 then "Propulsion".toList
      else if j = 2 then "Structure".toList else []
    qtys := fun j => if j = 0 then 5000 else if j = 1 then 200 else if j = 2 then 40 else 0
    units := fun j => if j = 0 then "kg".toList else if j < 3 then "pcs".toList else []
    costs := fun j => if j = 0 then 1 / 2 else if j = 1 then 6 / 5 else if j = 2 then 3 / 10 else 0
    count := 3 }

/-- A stand-in for the number formatting of the stream library where the text
written for an amount does not matter. -/
def showNothing : Money → Str := fun _ => []

/-- A user store holding the given text. -/
def usersStore (text : String) : Files :=
  { Files.absent with users := some text.toList }

/-- The usernames of the records of a user table are pairwise distinct. -/
def distinctUsernames (t : Users) : Prop :=
  ∀ i j : Nat, (i : Int) < t.count → (j : Int) < t.count →
    t.usernames i = t.usernames j → i = j

/-- A log holding two entries. -/
def sampleLogs : Logs :=
  ⟨fun j => if j = 0 then "Login Success: flight".toList
    else if j = 1 then "Decrypted".toList else [], 2⟩

/-- A record with username "themystery" is in the table `admin_Personnel` works on. -/
def hasSuperAdmin (a : PersonnelArgs) : Prop :=
  ∃ p : Nat, (p : Int) < a.userCount ∧ a.usernames p = "themystery".toList

/-- Every username has at most one application with status "Pending". -/
def onePending (h : Hires) : Prop :=
  ∀ i j : Nat, (i : Int) < h.count → (j : Int) < h.count →
    h.users i = h.users j → h.status i = "Pending".toList → h.status j = "Pending".toList →
    i = j

/-- The argument pack of `admin_Personnel` for the three seed users, with their
`departments` array. -/
def sampleArgs : PersonnelArgs :=
  ⟨sampleUsers.usernames, sampleUsers.passwords, sampleUsers.roles,
    some sampleUsers.departments, 3⟩

/-- A hiring table with one pending application. -/
def sampleHires : Hires :=
  { users := fun j => if j = 0 then "orion77".toList else []
    roles := fun j => if j = 0 then "engineer".toList else []
    exp := fun j => if j = 0 then "JPL; 3 years".toList else []
    status := fun j => if j = 0 then "Pending".toList else []
    names := fun j => if j = 0 then "Ada Orion".toList else []
    edu := fun j => if j = 0 then "MSc".toList else []
    count := 1 }

/-- An astronaut roster with no record. -/
def Astronauts.empty : Astronauts :=
  { names := fun _ => [], ranks := fun _ => [], status := fun _ => [], count := 0 }

/-- The three seed users followed by the visitor "orion77". -/
def visitorUsers : Users :=
  { usernames := sampleUsers.usernames.set 3 "orion77".toList
    passwords := sampleUsers.passwords.set 3 "Apollo#11".toList
    roles := sampleUsers.roles.set 3 "visitor".toList
    departments := sampleUsers.departments.set 3 "GEN".toList
    count := 4 }

/-- A mission store holding the given text. -/
def missionsStore (text : String) : Files :=
  { Files.absent with missions := some text.toList }

/-- A mission table with empty strings and no record, as `main` declares it; the
amounts, which `main` leaves uninitialised, are taken as 0. -/
def Missions.empty : Missions :=
  { names := fun _ => [], codes := fun _ => [], dates := fun _ => [], vehicles := fun _ => [],
    status := fun _ => [], budgets := fun _ => 0, requesters := fun _ => [],
    costs := fun _ => 0, count := 0 }

/-- The text of store lines, each ended by a newline. -/
def linesText (lines : List Str) : Str :=
  lines.flatMap (fun line => line ++ ['\n'])

/-- The printing of the two amounts of the example. -/
def showExample : Money → Str :=
  fun q => if q = 10 then "10".toList else if q = 1 / 100 then "0.01".toList else []

/-- An inventory store whose header announces 501 records, followed by 501
well-formed record lines. -/
def oversizedInventory : Files :=
  { Files.absent with
    inv := some ("501\n".toList ++ (List.range 501).flatMap (fun _ => "w,s,1,u,1\n".toList)) }

/-- An inventory store holding the given text. -/
def inventoryStore (text : String) : Files :=
  { Files.absent with inv := some text.toList }

/-- A user table whose only record is an admin not named "themystery". -/
def soloUsers : Users :=
  { usernames := fun j => if j = 0 then "boss01".toList else []
    passwords := fun j => if j = 0 then "Secret#1".toList else []
    roles := fun j => if j = 0 then "admin".toList else []
    departments := fun j => if j = 0 then "HQ".toList else []
    count := 1 }

/-- The seed missions followed by one requested mission whose budget and cost
are `+inf`. -/
def infiniteMissions : Missions :=
  { pendingMissions with
    budgets := pendingMissions.budgets.set 3 Money.pinf
    costs := pendingMissions.costs.set 3 Money.pinf }

/-- The text `r` starts a number for `strtod`: it begins with a digit, with a
point followed by a digit, or with the letters `inf` or `nan` in either case. -/
def startsNumber (r : Str) : Bool :=
  (r.take 3).map Char.toLower = "inf".toList || (r.take 3).map Char.toLower = "nan".toList ||
    match r with
    | c :: r1 =>
      c.isDigit || (c = '.' && match r1 with
        | d :: _ => d.isDigit
        | [] => false)
    | [] => false

/-- A numeric token that is not a number: after white space and an optional
sign nothing starts a number. -/
def notNumber (tok : Str) : Prop := startsNumber (readSign tok).2 = false

/-! # Theorems -/

/-! ## Lemmas on the library primitives -/

theorem find_at (pre u tail : Str) (hu : ',' ∉ u) :
    find (pre ++ (u ++ ',' :: tail)) ',' pre.length = pre.length + u.length := by
  unfold find
  simp only [List.drop_left, List.indexOf_append_of_not_mem hu, List.indexOf_cons_self,
    Nat.add_zero, List.length_append, List.length_cons]
  rw [if_pos (by omega)]

theorem substr_at (pre u tail : Str) (n : Nat) (hn : n = u.length) :
    substr (pre ++ (u ++ tail)) pre.length n = u := by
  subst hn
  simp [substr, List.drop_left, List.take_left]

theorem substr_end (pre u : Str) (n : Nat) (hn : u.length ≤ n) :
    substr (pre ++ u) pre.length n = u := by
  simp [substr, List.drop_left, List.take_of_length_le hn]

theorem readInt_showInt (k : Nat) (hk : k ≤ 200) (rest : Str) :
    readInt (showInt (k : Int) ++ '\n' :: rest) = some ((k : Int), '\n' :: rest) := by
  interval_cases k <;> rfl

theorem ignore_newline (rest : Str) : ignore 1000 ('\n' :: rest) = rest := by
  simp [ignore]

theorem getline_line (l rest : Str) (hl : '\n' ∉ l) :
    getline (l ++ '\n' :: rest) = some (l, rest) := by
  have h1 : ∀ a ∈ l, (fun c : Char => c != '\n') a = true := by
    intro a ha
    have : a ≠ '\n' := fun h => hl (h ▸ ha)
    simpa using this
  cases l with
  | nil => simp [getline]
  | cons c l =>
    have hc := h1 c (List.mem_cons_self _ _)
    simp only [getline, List.cons_append]
    rw [← List.cons_append, List.takeWhile_append_of_pos h1, List.dropWhile_append_of_pos h1]
    simp

/-- A found position lies inside the line, so `substr` is never called past the end. -/
theorem find_lt_length (line : Str) (c : Char) (pos : Nat) (h : find line c pos ≠ NPOS) :
    find line c pos < line.length := by
  unfold find at h ⊢
  simp only at h ⊢
  split
  · assumption
  · rename_i hn
    rw [if_neg hn] at h
    exact absurd rfl h

/-- After a failed search the next search starts again at position 0. -/
theorem addSz_npos : addSz NPOS 1 = 0 := by decide

theorem addSz_small (a b : Nat) (h : a + b < 2 ^ 64) : addSz a b = a + b := by
  unfold addSz; exact Nat.mod_eq_of_lt h

theorem subSz_small (a b : Nat) (h : a + b < 2 ^ 64) : subSz (a + b) a = b := by
  unfold subSz
  rw [Nat.mod_eq_of_lt h, Nat.mod_eq_of_lt (by omega : a < 2 ^ 64)]
  have : a + b + 2 ^ 64 - a = b + 2 ^ 64 := by omega
  rw [this, Nat.add_mod_right, Nat.mod_eq_of_lt (by omega)]

/-- Decoding a line of four fields whose first three hold no comma. -/
theorem loadUsersLine_fields (u p r d : Str) (i : Nat) (t : Users)
    (hu : ',' ∉ u) (hp : ',' ∉ p) (hr : ',' ∉ r)
    (hlen : (u ++ ',' :: (p ++ ',' :: (r ++ ',' :: d))).length < NPOS) :
    loadUsersLine (u ++ ',' :: (p ++ ',' :: (r ++ ',' :: d))) i t =
      { usernames := t.usernames.set i u
        passwords := t.passwords.set i p
        roles := t.roles.set i r
        departments := t.departments.set i d
        count := t.count + 1 } := by
  have hN : NPOS = 2 ^ 64 - 1 := rfl
  simp only [List.length_append, List.length_cons] at hlen
  have e1 : u ++ ',' :: (p ++ ',' :: (r ++ ',' :: d))
      = ([] : Str) ++ (u ++ ',' :: (p ++ ',' :: (r ++ ',' :: d))) := rfl
  have e2 : u ++ ',' :: (p ++ ',' :: (r ++ ',' :: d))
      = (u ++ [',']) ++ (p ++ ',' :: (r ++ ',' :: d)) := by simp
  have e3 : u ++ ',' :: (p ++ ',' :: (r ++ ',' :: d))
      = (u ++ ',' :: (p ++ [','])) ++ (r ++ ',' :: d) := by simp
  have e4 : u ++ ',' :: (p ++ ',' :: (r ++ ',' :: d))
      = (u ++ ',' :: (p ++ ',' :: (r ++ [',']))) ++ d := by simp
  have l2 : (u ++ [',']).length = u.length + 1 := by simp
  have l3 : (u ++ ',' :: (p ++ [','])).length = u.length + 1 + (p.length + 1) := by
    simp; omega
  have l4 : (u ++ ',' :: (p ++ ',' :: (r ++ [',']))).length
      = u.length + 1 + (p.length + 1) + (r.length + 1) := by
    simp; omega
  have p1 : find (u ++ ',' :: (p ++ ',' :: (r ++ ',' :: d))) ',' 0 = u.length := by
    have := find_at [] u (p ++ ',' :: (r ++ ',' :: d)) hu
    simpa using this
  have a1 : addSz u.length 1 = u.length + 1 := addSz_small _ _ (by omega)
  have p2 : find (u ++ ',' :: (p ++ ',' :: (r ++ ',' :: d))) ',' (u.length + 1)
      = u.length + 1 + p.length := by
    have := find_at (u ++ [',']) p (r ++ ',' :: d) hp
    rw [← e2, l2] at this
    exact this
  have a2 : addSz (u.length + 1 + p.length) 1 = u.length + 1 + (p.length + 1) :=
    addSz_small _ _ (by omega)
  have p3 : find (u ++ ',' :: (p ++ ',' :: (r ++ ',' :: d))) ',' (u.length + 1 + (p.length + 1))
      = u.length + 1 + (p.length + 1) + r.length := by
    have := find_at (u ++ ',' :: (p ++ [','])) r d hr
    rw [← e3, l3] at this
    exact this
  have a3 : addSz (u.length + 1 + (p.length + 1) + r.length) 1
      = u.length + 1 + (p.length + 1) + (r.length + 1) := addSz_small _ _ (by omega)
  have s1 : subSz (subSz (u.length + 1 + p.length) u.length) 1 = p.length := by
    have h1 : subSz (u.length + (1 + p.length)) u.length = 1 + p.length :=
      subSz_small _ _ (by omega)
    rw [Nat.add_assoc, h1]
    exact subSz_small 1 p.length (by omega)
  have s2 : subSz (subSz (u.length + 1 + (p.length + 1) + r.length) (u.length + 1 + p.length)) 1
      = r.length := by
    have h1 : subSz (u.length + 1 + p.length + (1 + r.length)) (u.length + 1 + p.length)
        = 1 + r.length := subSz_small _ _ (by omega)
    have h0 : u.length + 1 + (p.length + 1) + r.length
        = u.length + 1 + p.length + (1 + r.length) := by omega
    rw [h0, h1]
    exact subSz_small 1 r.length (by omega)
  have q1 : substr (u ++ ',' :: (p ++ ',' :: (r ++ ',' :: d))) 0 u.length = u := by
    have := substr_at [] u (',' :: (p ++ ',' :: (r ++ ',' :: d))) u.length rfl
    simpa using this
  have q2 : substr (u ++ ',' :: (p ++ ',' :: (r ++ ',' :: d))) (u.length + 1) p.length = p := by
    have := substr_at (u ++ [',']) p (',' :: (r ++ ',' :: d)) p.length rfl
    rw [← e2, l2] at this
    exact this
  have q3 : substr (u ++ ',' :: (p ++ ',' :: (r ++ ',' :: d)))
      (u.length + 1 + (p.length + 1)) r.length = r := by
    have := substr_at (u ++ ',' :: (p ++ [','])) r (',' :: d) r.length rfl
    rw [← e3, l3] at this
    exact this
  have q4 : substr (u ++ ',' :: (p ++ ',' :: (r ++ ',' :: d)))
      (u.length + 1 + (p.length + 1) + (r.length + 1)) NPOS = d := by
    have := substr_end (u ++ ',' :: (p ++ ',' :: (r ++ [',']))) d NPOS (by omega)
    rw [← e4, l4] at this
    exact this
  unfold loadUsersLine
  simp only [p1, a1, p2, a2, p3, a3, s1, s2, q1, q2, q3, q4]
  rw [if_pos (by omega)]

theorem userLine_eq (s : Users) (j : Nat) (rest : Str) :
    userLine (s.usernames j) (s.passwords j) (s.roles j) (s.departments j) ++ rest
      = userFields s j ++ '\n' :: rest := by
  simp [userLine, userFields]

theorem loadUsersLine_frame (line : Str) (i : Nat) (t : Users) (j : Nat) (h : j ≠ i) :
    (loadUsersLine line i t).recordAt j = t.recordAt j := by
  unfold loadUsersLine
  simp only
  split
  · simp [Users.recordAt, Arr.set, h]
  · rfl

/-- The load loop started at index `i` writes no position below `i`. -/
theorem loadUsersLoop_frame : ∀ (n i : Nat) (f : Str) (t : Users) (j : Nat), j < i →
    (loadUsersLoop n i f t).recordAt j = t.recordAt j := by
  intro n
  induction n with
  | zero => intro i f t j _; rfl
  | succ n ih =>
    intro i f t j hj
    unfold loadUsersLoop
    cases hg : getline f with
    | none => simpa using ih (i + 1) f t j (by omega)
    | some lr =>
      obtain ⟨line, rest⟩ := lr
      simp only
      rw [ih (i + 1) rest _ j (by omega)]
      exact loadUsersLine_frame line i t j (by omega)

/-- The load loop run over the record lines of `s` from position `i` on rebuilds
those records at their positions and counts them. -/
theorem loadUsersLoop_rows (s : Users) (n : Nat) : ∀ (i : Nat) (t : Users),
    (∀ j, i ≤ j → j < i + n →
      cleanField (s.usernames j) ∧ cleanField (s.passwords j) ∧ cleanField (s.roles j) ∧
      cleanField (s.departments j) ∧ (userFields s j).length < NPOS) →
    (loadUsersLoop n i (userRows s i n) t).count = t.count + n ∧
    ∀ j, i ≤ j → j < i + n →
      (loadUsersLoop n i (userRows s i n) t).recordAt j = s.recordAt j := by
  induction n with
  | zero =>
    intro i t _
    refine ⟨by simp [loadUsersLoop], ?_⟩
    intro j h1 h2
    omega
  | succ n ih =>
    intro i t h
    obtain ⟨⟨hu, hun⟩, ⟨hp, hpn⟩, ⟨hr, hrn⟩, ⟨_, hdn⟩, hlen⟩ := h i (Nat.le_refl _) (by omega)
    have hnl : '\n' ∉ userFields s i := by
      simp only [userFields, List.mem_append, List.mem_cons, not_or]
      refine ⟨hun, by decide, hpn, by decide, hrn, by decide, hdn⟩
    have hrows : userRows s i (n + 1) = userFields s i ++ '\n' :: userRows s (i + 1) n := by
      simp only [userRows, List.range'_succ, List.flatMap_cons]
      exact userLine_eq s i _
    have hline := loadUsersLine_fields (s.usernames i) (s.passwords i) (s.roles i)
      (s.departments i) i t hu hp hr hlen
    have ih' := ih (i + 1) (loadUsersLine (userFields s i) i t)
      (fun j h1 h2 => h j (by omega) (by omega))
    have hstep : loadUsersLoop (n + 1) i (userRows s i (n + 1)) t
        = loadUsersLoop n (i + 1) (userRows s (i + 1) n) (loadUsersLine (userFields s i) i t) := by
      rw [hrows]
      conv_lhs => unfold loadUsersLoop
      rw [getline_line _ _ hnl]
    rw [hstep]
    refine ⟨?_, ?_⟩
    · rw [ih'.1]
      unfold userFields
      rw [hline]
      simp only [Nat.cast_add, Nat.cast_one]
      omega
    · intro j h1 h2
      by_cases hj : j = i
      · subst hj
        rw [loadUsersLoop_frame n (j + 1) _ _ j (by omega)]
        unfold userFields
        rw [hline]
        simp [Users.recordAt, Arr.set]
      · exact ih'.2 j (by omega) (by omega)

/-- C1. User store round trip: for a user table with `0 <= count <= MAX_USERS`
whose four fields hold no comma and no newline (each record line fitting in a
`std::string`, that is, shorter than `npos`), `loadUsers` on the store written by
`saveUsers` yields the same count and, at every position below the count, the
same four fields. -/
theorem users_store_round_trip (s t : Users) (fs : Files)
    (h0 : 0 ≤ s.count) (hmax : s.count ≤ MAX_USERS)
    (hclean : ∀ j : Nat, (j : Int) < s.count →
      cleanField (s.usernames j) ∧ cleanField (s.passwords j) ∧ cleanField (s.roles j) ∧
      cleanField (s.departments j))
    (hfit : ∀ j : Nat, (j : Int) < s.count → (userFields s j).length < NPOS) :
    (loadUsers (saveUsers s.usernames s.passwords s.roles s.departments s.count fs) t).count
      = s.count ∧
    ∀ j : Nat, (j : Int) < s.count →
      (loadUsers (saveUsers s.usernames s.passwords s.roles s.departments s.count fs) t).recordAt j
        = s.recordAt j := by
  obtain ⟨k, hk⟩ := Int.eq_ofNat_of_zero_le h0
  have hk200 : k ≤ 200 := by
    have : (k : Int) ≤ 200 := by rw [← hk]; exact hmax
    omega
  have hrows := loadUsersLoop_rows s k 0 { t with count := 0 } (by
    intro j _ hj
    have hj1 : (j : Int) < s.count := by rw [hk]; omega
    obtain ⟨a, b, c, d⟩ := hclean j hj1
    exact ⟨a, b, c, d, hfit j hj1⟩)
  have hload : loadUsers (saveUsers s.usernames s.passwords s.roles s.departments s.count fs) t
      = loadUsersLoop k 0 (userRows s 0 k) { t with count := 0 } := by
    rw [hk]
    simp only [saveUsers, saveUsersText, Int.toNat_ofNat, loadUsers, readInt_showInt k hk200,
      ignore_newline]
    have h1 : ¬ ((k : Int) > MAX_USERS) := by
      have : (k : Int) ≤ 200 := by omega
      simpa [MAX_USERS] using this
    rw [if_neg h1]
    have h2 : (min (k : Int) MAX_USERS).toNat = k := by
      have : (k : Int) ≤ MAX_USERS := by simpa [MAX_USERS] using (by omega : (k : Int) ≤ 200)
      rw [min_eq_left this]; simp
    rw [h2, userRows, List.range_eq_range']
  rw [hload]
  refine ⟨?_, ?_⟩
  · rw [hrows.1, hk]; simp
  · intro j hj
    exact hrows.2 j (Nat.zero_le _) (by rw [hk] at hj; omega)

/-- Witness for C1: the three seed users survive the round trip. -/
theorem users_store_round_trip_witness :
    (loadUsers (saveUsers sampleUsers.usernames sampleUsers.passwords sampleUsers.roles
        sampleUsers.departments sampleUsers.count Files.absent) Users.empty).count
      = sampleUsers.count ∧
    ∀ j : Nat, (j : Int) < sampleUsers.count →
      (loadUsers (saveUsers sampleUsers.usernames sampleUsers.passwords sampleUsers.roles
        sampleUsers.departments sampleUsers.count Files.absent) Users.empty).recordAt j
        = sampleUsers.recordAt j :=
  users_store_round_trip sampleUsers Users.empty Files.absent (by decide) (by decide)
    (by
      intro j hj
      have hj3 : j < 3 := by
        have : (j : Int) < 3 := hj
        omega
      interval_cases j <;> simp [cleanField, sampleUsers])
    (by
      intro j hj
      have hj3 : j < 3 := by
        have : (j : Int) < 3 := hj
        omega
      interval_cases j <;> simp [userFields, sampleUsers, NPOS])

/-! ## Shift-delete -/

theorem shiftArr_apply {α : Type} (n : Nat) : ∀ (k : Nat) (a : Arr α) (j : Nat),
    shiftArr n k a j = if k ≤ j ∧ j < k + n then a (j + 1) else a j := by
  induction n with
  | zero =>
    intro k a j
    have : ¬ (k ≤ j ∧ j < k) := by omega
    simp [shiftArr, this]
  | succ n ih =>
    intro k a j
    rw [shiftArr, ih]
    by_cases h1 : k + 1 ≤ j ∧ j < k + 1 + n
    · rw [if_pos h1, if_pos (by omega)]
      simp only [Arr.set]
      rw [if_neg (by omega)]
    · rw [if_neg h1]
      simp only [Arr.set]
      by_cases h2 : j = k
      · rw [if_pos h2, if_pos (by omega), h2]
      · rw [if_neg h2, if_neg (by omega)]

theorem inventoryShift_eq (n : Nat) : ∀ (k : Nat) (t : Inventory),
    inventoryShift n k t =
      { names := shiftArr n k t.names, cats := shiftArr n k t.cats,
        qtys := shiftArr n k t.qtys, units := shiftArr n k t.units,
        costs := shiftArr n k t.costs, count := t.count } := by
  induction n with
  | zero => intro k t; rfl
  | succ n ih => intro k t; rw [inventoryShift, ih]; rfl

theorem missionShift_eq (n : Nat) : ∀ (k : Nat) (t : Missions),
    missionShift n k t =
      { t with
        names := shiftArr n k t.names, status := shiftArr n k t.status,
        dates := shiftArr n k t.dates, requesters := shiftArr n k t.requesters,
        costs := shiftArr n k t.costs } := by
  induction n with
  | zero => intro k t; rfl
  | succ n ih => intro k t; rw [missionShift, ih]; rfl

theorem getInt_range (lo hi : Int) (h : lo ≤ hi) : ∀ (ids : List Int) (id : Int),
    getInt lo hi ids = some id → lo ≤ id ∧ id ≤ hi := by
  intro ids
  induction ids with
  | nil =>
    intro id hid
    simp [getInt, not_lt.mpr h] at hid
  | cons v rest ih =>
    intro id hid
    rw [getInt, if_neg (not_lt.mpr h)] at hid
    by_cases hv : lo ≤ v ∧ v ≤ hi
    · rw [if_pos hv] at hid
      cases hid
      exact hv
    · rw [if_neg hv] at hid
      exact ih id hid

/-- C2. Shift-delete on inventory: for an inventory table with `n >= 1` records
and a chosen id with `1 <= id <= n` (index `i = id - 1`), `eng_DeleteInventory`
returns a table of `n - 1` records in which every record at a position `j < i`
is unchanged and every record at a position `i <= j < n - 1` is the old record
at `j + 1`, in all five fields. -/
theorem eng_DeleteInventory_shift (showDouble : Money → Str) (ids : List Int)
    (t : Inventory) (fs : Files) (n i : Nat)
    (hn : t.count = (n : Int)) (hn1 : 1 ≤ n) (hi : i < n)
    (hid : getInt 1 t.count ids = some ((i : Int) + 1)) :
    ∃ t1 fs1, eng_DeleteInventory showDouble ids t fs = some (t1, fs1) ∧
      t1.count = (n : Int) - 1 ∧
      (∀ j, j < i → t1.recordAt j = t.recordAt j) ∧
      (∀ j, i ≤ j → j < n - 1 → t1.recordAt j = t.recordAt (j + 1)) := by
  have e : ((i : Int) + 1 - 1).toNat = i := by simp
  have e2 : (t.count - 1 - (i : Int)).toNat = n - 1 - i := by rw [hn]; omega
  refine ⟨_, _, by rw [eng_DeleteInventory, hid], ?_, ?_, ?_⟩
  · simp only [inventoryShift_eq]
    rw [hn]
  · intro j hj
    have hc : ¬ (i ≤ j ∧ j < i + (n - 1 - i)) := by omega
    simp only [inventoryShift_eq, Inventory.recordAt, shiftArr_apply, e, e2, if_neg hc]
  · intro j h1 h2
    have hc : i ≤ j ∧ j < i + (n - 1 - i) := by omega
    simp only [inventoryShift_eq, Inventory.recordAt, shiftArr_apply, e, e2, if_pos hc]

/-- Witness for C2: deleting id 2 from a table of three records. -/
theorem eng_DeleteInventory_shift_witness :
    ∃ t1 fs1, eng_DeleteInventory showNothing [2] sampleInventory Files.absent = some (t1, fs1) ∧
      t1.count = ((3 : Nat) : Int) - 1 ∧
      (∀ j, j < 1 → t1.recordAt j = sampleInventory.recordAt j) ∧
      (∀ j, 1 ≤ j → j < 3 - 1 → t1.recordAt j = sampleInventory.recordAt (j + 1)) :=
  eng_DeleteInventory_shift showNothing [2] sampleInventory Files.absent 3 1 rfl (by decide)
    (by decide) rfl

/-- C3 (evaluation). `flight_DeleteMission` moves five of the eight mission
columns: deleting id 2 from the three seed missions leaves at position 1 the
name, date, status, requester and cost of the old record 2 ("Friendship 7")
with the code, vehicle and budget of the old record 1. -/
theorem flight_DeleteMission_keeps_code_vehicle_budget :
    ∃ t1, flight_DeleteMission [2] seedMissions = some t1 ∧
      t1.count = 2 ∧
      t1.names 1 = "Friendship 7".toList ∧ seedMissions.names 2 = "Friendship 7".toList ∧
      t1.codes 1 = "MR-4".toList ∧ seedMissions.codes 2 = "MA-6".toList ∧
      t1.vehicles 1 = "Redstone".toList ∧ seedMissions.vehicles 2 = "Atlas".toList ∧
      t1.budgets 1 = 1 / 10 ∧ seedMissions.budgets 2 = 2 / 10 ∧
      t1.costs 1 = 2 / 10 ∧
      t1.recordAt 1 ≠ seedMissions.recordAt 2 := by
  refine ⟨_, rfl, rfl, by decide, by decide, by decide, by decide, by decide, by decide,
    rfl, rfl, rfl, ?_⟩
  intro h
  have h2 := congrArg (fun r => r.2.1) h
  revert h2
  decide

/-! ## Admin panel, sign-up, loading, seeding, funding -/

/-- C4 (evaluation). Deleting user 2 ("flight") of the three seed users through
`dashboard_Admin`: `admin_Personnel` receives `departments == nullptr`, so the
department column is not shifted, and the following `saveUsers` dereferences
the null pointer. In the table of `main` the record at position 1 is then
("eng", "engineer1", "staff", "FLT"), not the old record 2, whose department
is "ENG". -/
theorem dashboard_Admin_delete_keeps_departments :
    ∃ t1 l1 fs1,
      dashboard_Admin_personnel 'd' [2] [] sampleUsers Logs.empty Files.absent
        = Run.fault (t1, l1, fs1) ∧
      t1.count = 2 ∧
      t1.recordAt 0 = sampleUsers.recordAt 0 ∧
      t1.recordAt 1
        = ("eng".toList, "engineer1".toList, "staff".toList, "FLT".toList) ∧
      sampleUsers.recordAt 2
        = ("eng".toList, "engineer1".toList, "staff".toList, "ENG".toList) ∧
      t1.recordAt 1 ≠ sampleUsers.recordAt 2 :=
  ⟨_, _, _, rfl, rfl, by decide, by decide, by decide, by decide⟩

/-- C5. Capacity on sign-up: with `MAX_USERS` records in the user table, `signUp`
returns `false` for every username and password and hands back the user table,
the activity log and the stores as they were. -/
theorem signUp_full (username password : Str) (t : Users) (l : Logs) (fs : Files)
    (hfull : t.count = MAX_USERS) :
    signUp username password t l fs = (false, t, l, fs) := by
  unfold signUp
  split
  · rfl
  · rw [if_pos (ge_of_eq hfull)]

/-- Witness for C5: a full table and credentials that pass both format checks
and are not taken. -/
theorem signUp_full_witness :
    isValidUsername "orion77".toList = true ∧ isValidPassword "Apollo#11".toList = true ∧
    usernameTaken sampleUsers.usernames 3 "orion77".toList = false ∧
    signUp "orion77".toList "Apollo#11".toList { sampleUsers with count := 200 } Logs.empty
        (usersStore "3\n")
      = (false, { sampleUsers with count := 200 }, Logs.empty, usersStore "3\n") :=
  ⟨by decide, by decide, by decide,
    signUp_full "orion77".toList "Apollo#11".toList { sampleUsers with count := 200 } Logs.empty
      (usersStore "3\n") rfl⟩

/-- C6 (evaluation). `eng_DeleteInventory` on an empty inventory: `getInt(1, 0)`
returns 1 without reading, the counter is decremented to -1 and the store is
rewritten with the header `-1`, whatever is typed. -/
theorem eng_DeleteInventory_empty (showDouble : Money → Str) (ids : List Int) :
    ∃ t1 fs1, eng_DeleteInventory showDouble ids Inventory.empty Files.absent = some (t1, fs1) ∧
      t1.count = -1 ∧ fs1.inv = some "-1\n".toList := by
  cases ids <;> exact ⟨_, _, rfl, rfl, rfl⟩

/-- C7 (evaluation). A store line with exactly one comma is accepted: from
`p2 == npos` the search for the third comma restarts at position 0 and finds
the first comma again, so `"a,b"` is loaded as the record (a, b, a, b). Lines
with no comma or two commas are skipped. -/
theorem loadUsers_one_comma_line :
    (loadUsers (usersStore "1\na,b\n") Users.empty).count = 1 ∧
    (loadUsers (usersStore "1\na,b\n") Users.empty).recordAt 0
      = ("a".toList, "b".toList, "a".toList, "b".toList) ∧
    (loadUsers (usersStore "1\nab\n") Users.empty).count = 0 ∧
    (loadUsers (usersStore "1\na,b,c\n") Users.empty).count = 0 := by
  decide

/-- C8 (evaluation). A decoded line is stored at its line index, not at the
running count: with a malformed first line the only well-formed record lands at
position 1 while the count is 1, so position 0 keeps what the table held. -/
theorem loadUsers_malformed_first_line :
    (loadUsers (usersStore "2\nbad\na,b,c,d\n") Users.empty).count = 1 ∧
    (loadUsers (usersStore "2\nbad\na,b,c,d\n") Users.empty).recordAt 0 = ([], [], [], []) ∧
    (loadUsers (usersStore "2\nbad\na,b,c,d\n") Users.empty).recordAt 1
      = ("a".toList, "b".toList, "c".toList, "d".toList) := by
  decide

theorem loadUsers_absent (fs : Files) (t : Users) (h : fs.users = none) :
    loadUsers fs t = t := by
  simp [loadUsers, h]

/-- C9. Seed on empty users: started with count 0, when the user store is absent
or `loadUsers` yields zero records, `init_Users` leaves exactly 3 records with
roles admin, staff, staff, first username "themystery", and writes those three
records to the user store. -/
theorem init_Users_seeds (t : Users) (fs : Files) (h0 : t.count = 0)
    (hempty : fs.users = none ∨ (loadUsers fs t).count = 0) :
    (init_Users t fs).1.count = 3 ∧
    (init_Users t fs).1.roles 0 = "admin".toList ∧
    (init_Users t fs).1.roles 1 = "staff".toList ∧
    (init_Users t fs).1.roles 2 = "staff".toList ∧
    (init_Users t fs).1.usernames 0 = "themystery".toList ∧
    (init_Users t fs).2.users
      = some ("3\nthemystery,29July1958,admin,HQ\nflight,flight123,staff,FLT\n"
          ++ "eng,engineer1,staff,ENG\n").toList ∧
    (init_Users t fs).2.users
      = some (saveUsersText (init_Users t fs).1.usernames (init_Users t fs).1.passwords
          (init_Users t fs).1.roles (init_Users t fs).1.departments 3) := by
  have hc : (loadUsers fs t).count = 0 := by
    rcases hempty with h | h
    · rw [loadUsers_absent fs t h]; exact h0
    · exact h
  refine ⟨?_, ?_, ?_, ?_, ?_, ?_, ?_⟩ <;> simp only [init_Users, hc, if_true] <;> rfl

/-- Witness for C9: first run, no user store. -/
theorem init_Users_seeds_witness :
    (init_Users Users.empty Files.absent).1.count = 3 ∧
    (init_Users Users.empty Files.absent).1.roles 0 = "admin".toList ∧
    (init_Users Users.empty Files.absent).1.roles 1 = "staff".toList ∧
    (init_Users Users.empty Files.absent).1.roles 2 = "staff".toList ∧
    (init_Users Users.empty Files.absent).1.usernames 0 = "themystery".toList ∧
    (init_Users Users.empty Files.absent).2.users
      = some ("3\nthemystery,29July1958,admin,HQ\nflight,flight123,staff,FLT\n"
          ++ "eng,engineer1,staff,ENG\n").toList ∧
    (init_Users Users.empty Files.absent).2.users
      = some (saveUsersText (init_Users Users.empty Files.absent).1.usernames
          (init_Users Users.empty Files.absent).1.passwords
          (init_Users Users.empty Files.absent).1.roles
          (init_Users Users.empty Files.absent).1.departments 3) :=
  init_Users_seeds Users.empty Files.absent rfl (Or.inl rfl)

theorem pow2_pos (e : Int) : 0 < pow2 e := by
  unfold pow2
  split <;> positivity

theorem Money.le_fin_fin (a b : ℚ) : (Money.fin a ≤ Money.fin b) ↔ a ≤ b := by
  show Money.le (Money.fin a) (Money.fin b) = true ↔ a ≤ b
  simp [Money.le, Money.val]

theorem Money.zero_le_fin (a : ℚ) : ((0 : Money) ≤ Money.fin a) ↔ 0 ≤ a := by
  show Money.le (Money.fin ((0 : Nat) : ℚ)) (Money.fin a) = true ↔ 0 ≤ a
  simp [Money.le, Money.val]

/-- The `double` nearest to a magnitude is `>= 0`. -/
theorem roundMagnitude_nonneg (q : ℚ) : (0 : Money) ≤ roundMagnitude q := by
  unfold roundMagnitude
  split
  · exact (Money.zero_le_fin 0).mpr le_rfl
  · dsimp only
    split
    · rfl
    · refine (Money.zero_le_fin _).mpr (mul_nonneg (Nat.cast_nonneg _) (pow2_pos _).le)

theorem roundDbl_nonneg (q : ℚ) (hq : 0 ≤ q) : (0 : Money) ≤ roundDbl q := by
  unfold roundDbl
  rw [if_pos hq]
  exact roundMagnitude_nonneg q

/-- A `double` below another is not at least that other. -/
theorem Money.not_le_of_lt (a b : Money) (h : a < b) : ¬ b ≤ a := by
  change Money.lt a b = true at h
  show ¬ Money.le b a = true
  cases a <;> cases b <;> simp_all [Money.lt, Money.le, Money.val]

/-- The debit `B - b` is `>= 0` when `B >= 0`, `B >= b` and the two are not both
`+inf`. -/
theorem Money.sub_nonneg_of_le (B b : Money) (hB : 0 ≤ B) (hle : b ≤ B)
    (hinf : ¬ (B = Money.pinf ∧ b = Money.pinf)) : 0 ≤ B - b := by
  show (0 : Money) ≤ Money.add B (Money.neg b)
  cases B with
  | fin x =>
    have hx : 0 ≤ x := (Money.zero_le_fin x).mp hB
    cases b with
    | fin y =>
      have hy : y ≤ x := (Money.le_fin_fin y x).mp hle
      by_cases h0 : y = 0
      · simpa [Money.neg, Money.add, h0] using hB
      · simp only [Money.neg, if_neg h0, Money.add]
        exact roundDbl_nonneg _ (by linarith)
    | negZero =>
      simp only [Money.neg, Money.add]
      exact roundDbl_nonneg _ (by linarith)
    | pinf => exact absurd (show false = true from hle) (by decide)
    | ninf => rfl
    | nan => exact absurd (show false = true from hle) (by decide)
  | negZero =>
    cases b with
    | fin y =>
      by_cases h0 : y = 0
      · simp only [Money.neg, if_pos h0, Money.add]; rfl
      · have hy : y ≤ 0 := by
          have : Money.le (Money.fin y) Money.negZero = true := hle
          simpa [Money.le, Money.val] using this
        simp only [Money.neg, if_neg h0, Money.add]
        exact (Money.zero_le_fin _).mpr (by linarith)
    | negZero => simp only [Money.neg, Money.add]; exact (Money.zero_le_fin 0).mpr le_rfl
    | pinf => exact absurd (show false = true from hle) (by decide)
    | ninf => rfl
    | nan => exact absurd (show false = true from hle) (by decide)
  | pinf =>
    cases b with
    | fin y =>
      by_cases h0 : y = 0
      · simp only [Money.neg, if_pos h0, Money.add]; rfl
      · simp only [Money.neg, if_neg h0, Money.add]; rfl
    | negZero => rfl
    | pinf => exact absurd ⟨rfl, rfl⟩ hinf
    | ninf => rfl
    | nan => exact absurd (show false = true from hle) (by decide)
  | ninf => exact absurd (show false = true from hB) (by decide)
  | nan => exact absurd (show false = true from hB) (by decide)

/-- C10, counterexample. With the agency budget and the budget of the selected
mission both `+inf` (a `double` that `safeStod` returns for the store token
"inf"), the test `B >= b` passes and the debit leaves the agency budget a NaN,
which is not `>= 0`. -/
theorem admin_Missions_budget_infinite :
    safeStod "inf".toList = Money.pinf ∧
    (0 : Money) ≤ Money.pinf ∧
    getInt 0 infiniteMissions.count [4] = some 4 ∧
    infiniteMissions.budgets ((4 : Int) - 1).toNat ≤ Money.pinf ∧
    (∃ t1 l1 fs1,
      admin_Missions showNothing [4] infiniteMissions Money.pinf Logs.empty Files.absent
        = some (t1, Money.nan, l1, fs1) ∧
      t1.status ((4 : Int) - 1).toNat = "Planned".toList) ∧
    Money.pinf - infiniteMissions.budgets ((4 : Int) - 1).toNat = Money.nan ∧
    ¬ ((0 : Money) ≤ Money.nan) := by
  refine ⟨by decide!, by decide!, by decide!, by decide!, ⟨_, _, _, rfl, rfl⟩, by decide!,
    by decide!⟩

/-- C10 (amended). Budget non-negativity: for an agency budget `B >= 0` and a
selected mission (id other than 0) with budget `b`, where `B` and `b` are not
both `+inf`, `admin_Missions` either, when `B >= b`, sets the agency budget to
`B - b`, which is `>= 0`, and the status of the mission to "Planned", or, when
`B < b`, returns the mission table, the agency budget, the log and the stores as
they were. -/
theorem admin_Missions_budget (showDouble : Money → Str) (ids : List Int) (t : Missions)
    (B : Money) (l : Logs) (fs : Files) (id : Int)
    (hB : 0 ≤ B) (hid : getInt 0 t.count ids = some id) (hsel : id ≠ 0)
    (hinf : ¬ (B = Money.pinf ∧ t.budgets (id - 1).toNat = Money.pinf)) :
    (t.budgets (id - 1).toNat ≤ B →
      ∃ t1 l1 fs1,
        admin_Missions showDouble ids t B l fs
          = some (t1, B - t.budgets (id - 1).toNat, l1, fs1) ∧
        0 ≤ B - t.budgets (id - 1).toNat ∧
        t1.status (id - 1).toNat = "Planned".toList) ∧
    (B < t.budgets (id - 1).toNat →
      admin_Missions showDouble ids t B l fs = some (t, B, l, fs)) := by
  constructor
  · intro hle
    simp only [admin_Missions, hid, if_neg hsel, if_pos (ge_iff_le.mpr hle)]
    exact ⟨_, _, _, rfl, Money.sub_nonneg_of_le _ _ hB hle hinf, by simp [Arr.set]⟩
  · intro hlt
    simp only [admin_Missions, hid, if_neg hsel]
    rw [if_neg (Money.not_le_of_lt _ _ hlt)]

/-- Witness for C10: budget 50, the pending mission 4 (budget 0.7) is funded. -/
theorem admin_Missions_budget_witness :
    (pendingMissions.budgets ((4 : Int) - 1).toNat ≤ (50 : Money) →
      ∃ t1 l1 fs1,
        admin_Missions showNothing [4] pendingMissions 50 Logs.empty Files.absent
          = some (t1, 50 - pendingMissions.budgets ((4 : Int) - 1).toNat, l1, fs1) ∧
        0 ≤ 50 - pendingMissions.budgets ((4 : Int) - 1).toNat ∧
        t1.status ((4 : Int) - 1).toNat = "Planned".toList) ∧
    ((50 : Money) < pendingMissions.budgets ((4 : Int) - 1).toNat →
      admin_Missions showNothing [4] pendingMissions 50 Logs.empty Files.absent
        = some (pendingMissions, 50, Logs.empty, Files.absent)) :=
  admin_Missions_budget showNothing [4] pendingMissions 50 Logs.empty Files.absent 4
    (by decide!) rfl (by decide) (by decide!)

/-! ## Activity log, sign-up uniqueness, input sanitisation -/

/-- The lines of the first `k` entries do not depend on an entry at `n >= k`. -/
theorem logLines_set (a : Arr Str) (n : Nat) (v : Str) : ∀ k : Nat, k ≤ n →
    (List.range k).flatMap (fun i => (a.set n v) i ++ ['\n'])
      = (List.range k).flatMap (fun i => a i ++ ['\n']) := by
  intro k
  induction k with
  | zero => intro _; rfl
  | succ k ih =>
    intro hk
    rw [List.range_succ, List.flatMap_append, List.flatMap_append, ih (by omega)]
    simp only [List.flatMap_cons, List.flatMap_nil, List.append_nil, Arr.set]
    rw [if_neg (by omega)]

/-- C14. Activity log append: for a log with `n = count < MAX_LOGS` entries,
`addLog` stores the action at position `n`, leaves the entries below `n`
unchanged, makes the count `n + 1` and rewrites the log store with the whole
log: the text of the store is then the decimal of `n + 1` and a line end, the
`n` old entries in order, each with a line end, and the new action with a line
end, while the other stores are untouched; for a log with `count = MAX_LOGS` it
returns the log (count and every entry) and the stores unchanged. -/
theorem addLog_appends (action : Str) (l : Logs) (fs : Files) (n : Nat)
    (hn : l.count = (n : Int)) :
    (l.count < MAX_LOGS →
      (addLog action l fs).1.actions n = action ∧
      (∀ j : Nat, j < n → (addLog action l fs).1.actions j = l.actions j) ∧
      (addLog action l fs).1.count = (n : Int) + 1 ∧
      (addLog action l fs).2.logs
        = some (showInt ((n : Int) + 1) ++ '\n' ::
            ((List.range n).flatMap (fun i => l.actions i ++ ['\n']) ++ (action ++ ['\n']))) ∧
      (addLog action l fs).2 = { fs with logs := (addLog action l fs).2.logs }) ∧
    (l.count = MAX_LOGS → addLog action l fs = (l, fs)) := by
  constructor
  · intro hlt
    have hidx : l.count.toNat = n := by rw [hn]; simp
    rw [addLog, if_pos hlt]
    refine ⟨?_, ?_, ?_, ?_, ?_⟩
    · simp [Arr.set, hidx]
    · intro j hj
      simp only [Arr.set, hidx]
      rw [if_neg (by omega)]
    · simp [hn]
    · have hcount : (l.count + 1).toNat = n + 1 := by rw [hn]; omega
      simp only [saveLogs, saveLogsText, hidx, hcount]
      rw [List.range_succ, List.flatMap_append, logLines_set l.actions n action n le_rfl, hn]
      simp [Arr.set]
    · rfl
  · intro hfull
    simp only [addLog]
    rw [if_neg (by rw [hfull]; decide)]

/-- Witness for C14: a third entry is appended to a log of two; the log store
then holds the header 3 and the three entries. -/
theorem addLog_appends_witness :
    ((sampleLogs.count < MAX_LOGS →
      (addLog "Deleted User: flight".toList sampleLogs Files.absent).1.actions 2
        = "Deleted User: flight".toList ∧
      (∀ j : Nat, j < 2 →
        (addLog "Deleted User: flight".toList sampleLogs Files.absent).1.actions j
          = sampleLogs.actions j) ∧
      (addLog "Deleted User: flight".toList sampleLogs Files.absent).1.count
        = ((2 : Nat) : Int) + 1 ∧
      (addLog "Deleted User: flight".toList sampleLogs Files.absent).2.logs
        = some (showInt (((2 : Nat) : Int) + 1) ++ '\n' ::
            ((List.range 2).flatMap (fun i => sampleLogs.actions i ++ ['\n'])
              ++ ("Deleted User: flight".toList ++ ['\n']))) ∧
      (addLog "Deleted User: flight".toList sampleLogs Files.absent).2
        = { Files.absent with
            logs := (addLog "Deleted User: flight".toList sampleLogs Files.absent).2.logs }) ∧
    (sampleLogs.count = MAX_LOGS →
      addLog "Deleted User: flight".toList sampleLogs Files.absent
        = (sampleLogs, Files.absent))) ∧
    sampleLogs.count < MAX_LOGS ∧
    (addLog "Deleted User: flight".toList sampleLogs Files.absent).2.logs
      = some "3\nLogin Success: flight\nDecrypted\nDeleted User: flight\n".toList ∧
    (addLog "Deleted User: flight".toList sampleLogs Files.absent).2.users = none :=
  ⟨addLog_appends "Deleted User: flight".toList sampleLogs Files.absent 2 rfl,
    by decide, by decide, by decide⟩

theorem usernameTaken_iff (usernames : Arr Str) (n : Nat) (username : Str) :
    usernameTaken usernames (n : Int) username = true ↔
      ∃ i : Nat, i < n ∧ usernames i = username := by
  simp [usernameTaken, List.any_eq_true, List.mem_range]

/-- C15. Username uniqueness is kept by sign-up: for a user table of `n` records
with pairwise distinct usernames, `signUp` returns `false` and changes nothing
when the requested username occurs among them; when it returns `true` the
table has `n + 1` records with pairwise distinct usernames, the new record
(username, password, "visitor", "GEN") at position `n` and the records below `n`
unchanged. -/
theorem signUp_keeps_usernames_distinct (username password : Str) (t : Users) (l : Logs)
    (fs : Files) (n : Nat) (hn : t.count = (n : Int)) (hd : distinctUsernames t) :
    ((∃ i : Nat, i < n ∧ t.usernames i = username) →
      signUp username password t l fs = (false, t, l, fs)) ∧
    (∀ t1 l1 fs1, signUp username password t l fs = (true, t1, l1, fs1) →
      t1.count = (n : Int) + 1 ∧ distinctUsernames t1 ∧
      t1.recordAt n = (username, password, "visitor".toList, "GEN".toList) ∧
      ∀ j : Nat, j < n → t1.recordAt j = t.recordAt j) := by
  obtain ⟨us, ps, rs, ds, cnt⟩ := t
  simp only at hn
  subst hn
  constructor
  · intro htaken
    have ht : usernameTaken us (n : Int) username = true :=
      (usernameTaken_iff _ _ _).mpr htaken
    unfold signUp
    simp only [ht, if_true]
    split
    · rfl
    · split <;> rfl
  · intro t1 l1 fs1 hs
    unfold signUp at hs
    split at hs
    · simp at hs
    · split at hs
      · simp at hs
      · split at hs
        · simp at hs
        · rename_i hnt
          simp only [Prod.mk.injEq, true_and] at hs
          obtain ⟨ht1, _, _⟩ := hs
          subst ht1
          have hfree : ∀ i : Nat, i < n → us i ≠ username := by
            intro i hi he
            apply hnt
            exact (usernameTaken_iff _ _ _).mpr ⟨i, hi, he⟩
          simp only [Int.toNat_ofNat]
          refine ⟨trivial, ?_, by simp [Users.recordAt, Arr.set], ?_⟩
          · intro i j hi hj hij
            simp only [Arr.set] at hij
            have hi2 : i < n + 1 := by
              have : (i : Int) < (n : Int) + 1 := hi
              omega
            have hj2 : j < n + 1 := by
              have : (j : Int) < (n : Int) + 1 := hj
              omega
            by_cases h1 : i = n <;> by_cases h2 : j = n
            · omega
            · rw [if_pos h1, if_neg h2] at hij
              exact absurd hij.symm (hfree j (by omega))
            · rw [if_neg h1, if_pos h2] at hij
              exact absurd hij (hfree i (by omega))
            · rw [if_neg h1, if_neg h2] at hij
              exact hd i j (by show (i : Int) < (n : Int); omega)
                (by show (j : Int) < (n : Int); omega) hij
          · intro j hj
            have hne : j ≠ n := by omega
            simp [Users.recordAt, Arr.set, hne]

theorem sampleUsers_distinct : distinctUsernames sampleUsers := by
  intro i j hi hj hij
  have hi3 : i < 3 := by
    have : (i : Int) < 3 := hi
    omega
  have hj3 : j < 3 := by
    have : (j : Int) < 3 := hj
    omega
  interval_cases i <;> interval_cases j <;> first | rfl | (revert hij; decide)

/-- Witness for C15: the three seed users and a new username. -/
theorem signUp_keeps_usernames_distinct_witness :
    ((∃ i : Nat, i < 3 ∧ sampleUsers.usernames i = "orion77".toList) →
      signUp "orion77".toList "Apollo#11".toList sampleUsers Logs.empty Files.absent
        = (false, sampleUsers, Logs.empty, Files.absent)) ∧
    (∀ t1 l1 fs1,
      signUp "orion77".toList "Apollo#11".toList sampleUsers Logs.empty Files.absent
        = (true, t1, l1, fs1) →
      t1.count = ((3 : Nat) : Int) + 1 ∧ distinctUsernames t1 ∧
      t1.recordAt 3
        = ("orion77".toList, "Apollo#11".toList, "visitor".toList, "GEN".toList) ∧
      ∀ j : Nat, j < 3 → t1.recordAt j = sampleUsers.recordAt j) :=
  signUp_keeps_usernames_distinct "orion77".toList "Apollo#11".toList sampleUsers Logs.empty
    Files.absent 3 rfl sampleUsers_distinct

/-- C18. Input sanitisation: the string returned by `getInput` has the length of
the typed line, holds no `,` and no `|`, has `;` exactly at the positions where
the line has `,`, `|` or `;`, equals the line at every other position, and
sanitising twice is the same as once. -/
theorem getInput_sanitises (s : Str) :
    (getInput s).length = s.length ∧
    ',' ∉ getInput s ∧ '|' ∉ getInput s ∧
    (∀ (i : Nat) (c : Char), s[i]? = some c →
      ((getInput s)[i]? = some ';' ↔ (c = ',' ∨ c = '|' ∨ c = ';')) ∧
      (c ≠ ',' → c ≠ '|' → (getInput s)[i]? = some c)) ∧
    getInput (getInput s) = getInput s := by
  refine ⟨by simp [getInput], ?_, ?_, ?_, ?_⟩
  · simp only [getInput, List.mem_map, not_exists, not_and]
    intro c _
    split <;> simp_all
  · simp only [getInput, List.mem_map, not_exists, not_and]
    intro c _
    split <;> simp_all
  · intro i c hc
    simp only [getInput, List.getElem?_map, hc, Option.map_some']
    constructor
    · constructor
      · intro h
        by_cases h1 : c = ',' ∨ c = '|'
        · rcases h1 with h1 | h1
          · exact Or.inl h1
          · exact Or.inr (Or.inl h1)
        · rw [if_neg h1] at h
          exact Or.inr (Or.inr (Option.some.inj h))
      · intro h
        rcases h with h | h | h
        · rw [if_pos (Or.inl h)]
        · rw [if_pos (Or.inr h)]
        · subst h
          rfl
    · intro h1 h2
      rw [if_neg (by simp [h1, h2])]
  · simp only [getInput, List.map_map]
    apply List.map_congr_left
    intro c _
    simp only [Function.comp]
    split
    · rfl
    · rfl

/-! ## Protected super-admin -/

theorem personnelShift_usernames (n : Nat) : ∀ (k : Nat) (a : PersonnelArgs),
    (personnelShift n k a).usernames = shiftArr n k a.usernames ∧
    (personnelShift n k a).userCount = a.userCount := by
  induction n with
  | zero => intro k a; exact ⟨rfl, rfl⟩
  | succ n ih =>
    intro k a
    rw [personnelShift]
    exact ih (k + 1) _

theorem savePersonnel_state (a : PersonnelArgs) (l : Logs) (fs : Files)
    (s : PersonnelArgs × Logs × Files)
    (h : savePersonnel a l fs = Run.ret s ∨ savePersonnel a l fs = Run.fault s) :
    s.1 = a := by
  unfold savePersonnel at h
  split at h
  · rcases h with h | h
    · cases h; rfl
    · cases h
  · split at h
    · rcases h with h | h
      · cases h; rfl
      · cases h
    · rcases h with h | h
      · cases h
      · cases h; rfl

/-- C17. Protected super-admin: for every user table and every `admin_Personnel`
action, if a record with username "themystery" is in the table before the call
then one is in the table of every state the call ends in; selecting that record
for deletion returns the count, all records, the log and the stores unchanged. -/
theorem admin_Personnel_keeps_superadmin (c : Char) (ids : List Int) (roleLine : Str)
    (a : PersonnelArgs) (l : Logs) (fs : Files) (h : hasSuperAdmin a) :
    (∀ s, (admin_Personnel c ids roleLine a l fs = Run.ret s ∨
        admin_Personnel c ids roleLine a l fs = Run.fault s) → hasSuperAdmin s.1) ∧
    (∀ id : Int, (c = 'd' ∨ c = 'D') → getInt 1 a.userCount ids = some id →
      a.usernames (id - 1).toNat = "themystery".toList →
      admin_Personnel c ids roleLine a l fs = Run.ret (a, l, fs)) := by
  obtain ⟨p, hp, hpu⟩ := h
  have hcount : (1 : Int) ≤ a.userCount := by omega
  constructor
  · intro s hs
    unfold admin_Personnel at hs
    split at hs
    · rcases hs with hs | hs
      · cases hs; exact ⟨p, hp, hpu⟩
      · cases hs
    · cases hg : getInt 1 a.userCount ids with
      | none =>
        rw [hg] at hs
        rcases hs with hs | hs <;> cases hs
      | some id =>
        rw [hg] at hs
        simp only at hs
        obtain ⟨hid1, hid2⟩ := getInt_range 1 a.userCount hcount ids id hg
        split at hs
        · have := savePersonnel_state _ _ _ s hs
          rw [this]
          exact ⟨p, hp, hpu⟩
        · split at hs
          · split at hs
            · rcases hs with hs | hs
              · cases hs; exact ⟨p, hp, hpu⟩
              · cases hs
            · rename_i hne
              have hst := savePersonnel_state _ _ _ s hs
              rw [hst]
              obtain ⟨i, hi⟩ : ∃ i : Nat, (id - 1).toNat = i := ⟨_, rfl⟩
              have hii : (i : Int) = id - 1 := by omega
              rw [hi] at hne
              have hpi : p ≠ i := by
                intro hpi
                rw [hpi] at hpu
                exact hne hpu
              have hus := (personnelShift_usernames (a.userCount - 1 - (i : Int)).toNat i a).1
              have hcn := (personnelShift_usernames (a.userCount - 1 - (i : Int)).toNat i a).2
              by_cases hlt : p < i
              · refine ⟨p, ?_, ?_⟩
                · show (p : Int) < (personnelShift _ (id - 1).toNat a).userCount - 1
                  rw [hi, hcn]
                  omega
                · show (personnelShift _ (id - 1).toNat a).usernames p = _
                  rw [hi, hus, shiftArr_apply, if_neg (by omega)]
                  exact hpu
              · have hp1 : 1 ≤ p := by omega
                refine ⟨p - 1, ?_, ?_⟩
                · show ((p - 1 : Nat) : Int) < (personnelShift _ (id - 1).toNat a).userCount - 1
                  rw [hi, hcn]
                  omega
                · show (personnelShift _ (id - 1).toNat a).usernames (p - 1) = _
                  rw [hi, hus, shiftArr_apply, if_pos (by omega)]
                  have : p - 1 + 1 = p := by omega
                  rw [this]
                  exact hpu
          · rcases hs with hs | hs
            · cases hs; exact ⟨p, hp, hpu⟩
            · cases hs
  · intro id hc hg hname
    have hb : ¬ (c = 'b' ∨ c = 'B') := by
      rcases hc with hc | hc <;> subst hc <;> decide
    have he : ¬ (c = 'e' ∨ c = 'E') := by
      rcases hc with hc | hc <;> subst hc <;> decide
    unfold admin_Personnel
    rw [if_neg hb, hg]
    simp only
    rw [if_neg he, if_pos hc, if_pos hname]

theorem sampleArgs_hasSuperAdmin : hasSuperAdmin sampleArgs :=
  ⟨0, by decide, by decide⟩

/-- Witness for C17: the admin panel on the three seed users, id 1 chosen for
deletion. -/
theorem admin_Personnel_keeps_superadmin_witness :
    (∀ s, (admin_Personnel 'd' [1] [] sampleArgs Logs.empty Files.absent = Run.ret s ∨
        admin_Personnel 'd' [1] [] sampleArgs Logs.empty Files.absent = Run.fault s) →
      hasSuperAdmin s.1) ∧
    (∀ id : Int, (('d' : Char) = 'd' ∨ ('d' : Char) = 'D') →
      getInt 1 sampleArgs.userCount [1] = some id →
      sampleArgs.usernames (id - 1).toNat = "themystery".toList →
      admin_Personnel 'd' [1] [] sampleArgs Logs.empty Files.absent
        = Run.ret (sampleArgs, Logs.empty, Files.absent)) :=
  admin_Personnel_keeps_superadmin 'd' [1] [] sampleArgs Logs.empty Files.absent
    sampleArgs_hasSuperAdmin

/-! ## One pending application per user -/

theorem onePending_status_set (h : Hires) (idx : Nat) (v : Str)
    (hv : v ≠ "Pending".toList) (hp : onePending h) :
    onePending { h with status := h.status.set idx v } := by
  intro i j hi hj hu hsi hsj
  have key : ∀ k : Nat, (h.status.set idx v) k = "Pending".toList →
      h.status k = "Pending".toList := by
    intro k hk
    simp only [Arr.set] at hk
    by_cases hki : k = idx
    · rw [if_pos hki] at hk
      exact absurd hk hv
    · rw [if_neg hki] at hk
      exact hk
  exact hp i j hi hj hu (key i hsi) (key j hsj)

theorem alreadyApplied_iff (h : Hires) (username : Str) :
    alreadyApplied h username = true ↔
      ∃ i : Nat, i < h.count.toNat ∧ h.users i = username ∧ h.status i = "Pending".toList := by
  simp [alreadyApplied, List.any_eq_true, List.mem_range]

/-- C16. One pending application per user: if every username has at most one
application with status "Pending", this still holds after a `career_Menu` apply
action and after an `admin_Hiring` action (approve, reject or any other key);
an apply by a user who already has a pending application returns the hiring
table, the log and the stores unchanged. -/
theorem hiring_keeps_onePending (h : Hires) (hp : onePending h) :
    (∀ (username userRole full edu exp : Str) (ids : List Int) (l : Logs) (fs : Files)
        (h1 : Hires) (l1 : Logs) (fs1 : Files),
      career_Apply username userRole full edu exp ids h l fs = some (h1, l1, fs1) →
      onePending h1) ∧
    (∀ (c : Char) (ids : List Int) (usernames roles : Arr Str) (userLimit : Int)
        (a : Astronauts) (l : Logs) (fs : Files)
        (roles1 : Arr Str) (h1 : Hires) (a1 : Astronauts) (l1 : Logs) (fs1 : Files),
      admin_Hiring c ids usernames roles userLimit h a l fs = some (roles1, h1, a1, l1, fs1) →
      onePending h1) ∧
    (∀ (username userRole full edu exp : Str) (ids : List Int) (l : Logs) (fs : Files),
      (∃ i : Nat, (i : Int) < h.count ∧ h.users i = username ∧
        h.status i = "Pending".toList) →
      career_Apply username userRole full edu exp ids h l fs = some (h, l, fs)) := by
  refine ⟨?_, ?_, ?_⟩
  · intro username userRole full edu exp ids l fs h1 l1 fs1 hs
    unfold career_Apply at hs
    split at hs
    · cases hs; exact hp
    · split at hs
      · cases hs; exact hp
      · split at hs
        · cases hs; exact hp
        · rename_i hnot
          have hfree : ∀ i : Nat, i < h.count.toNat →
              ¬ (h.users i = username ∧ h.status i = "Pending".toList) := by
            intro i hi hc
            exact hnot ((alreadyApplied_iff h username).mpr ⟨i, hi, hc⟩)
          split at hs
          · cases hs
          · cases hs
            intro i j hi hj hu hsi hsj
            simp only at hi hj hu hsi hsj
            simp only [Arr.set] at hu hsi hsj
            by_cases h1 : i = h.count.toNat <;> by_cases h2 : j = h.count.toNat
            · omega
            · rw [if_pos h1, if_neg h2] at hu
              rw [if_neg h2] at hsj
              exact absurd ⟨hu.symm, hsj⟩ (hfree j (by omega))
            · rw [if_neg h1, if_pos h2] at hu
              rw [if_neg h1] at hsi
              exact absurd ⟨hu, hsi⟩ (hfree i (by omega))
            · rw [if_neg h1, if_neg h2] at hu
              rw [if_neg h1] at hsi
              rw [if_neg h2] at hsj
              exact hp i j (by omega) (by omega) hu hsi hsj
  · intro c ids usernames roles userLimit a l fs roles1 h1 a1 l1 fs1 hs
    have hA : "Approved".toList ≠ "Pending".toList := by decide
    have hR : "Rejected".toList ≠ "Pending".toList := by decide
    unfold admin_Hiring at hs
    repeat' first
      | (cases hs <;> first
           | exact hp
           | exact onePending_status_set h _ _ hA hp
           | exact onePending_status_set h _ _ hR hp)
      | split at hs
      | dsimp only at hs
  · intro username userRole full edu exp ids l fs hex
    obtain ⟨i, hi, hu, hs⟩ := hex
    have ha : alreadyApplied h username = true :=
      (alreadyApplied_iff h username).mpr ⟨i, by omega, hu, hs⟩
    unfold career_Apply
    simp only [ha, if_true]
    split
    · rfl
    · split <;> rfl

theorem sampleHires_onePending : onePending sampleHires := by
  intro i j hi hj _ _ _
  have hi1 : (i : Int) < 1 := hi
  have hj1 : (j : Int) < 1 := hj
  omega

/-- Witness for C16: a hiring table with one pending application. -/
theorem hiring_keeps_onePending_witness :
    (∀ (username userRole full edu exp : Str) (ids : List Int) (l : Logs) (fs : Files)
        (h1 : Hires) (l1 : Logs) (fs1 : Files),
      career_Apply username userRole full edu exp ids sampleHires l fs = some (h1, l1, fs1) →
      onePending h1) ∧
    (∀ (c : Char) (ids : List Int) (usernames roles : Arr Str) (userLimit : Int)
        (a : Astronauts) (l : Logs) (fs : Files)
        (roles1 : Arr Str) (h1 : Hires) (a1 : Astronauts) (l1 : Logs) (fs1 : Files),
      admin_Hiring c ids usernames roles userLimit sampleHires a l fs
        = some (roles1, h1, a1, l1, fs1) →
      onePending h1) ∧
    (∀ (username userRole full edu exp : Str) (ids : List Int) (l : Logs) (fs : Files),
      (∃ i : Nat, (i : Int) < sampleHires.count ∧ sampleHires.users i = username ∧
        sampleHires.status i = "Pending".toList) →
      career_Apply username userRole full edu exp ids sampleHires l fs
        = some (sampleHires, l, fs)) :=
  hiring_keeps_onePending sampleHires sampleHires_onePending

/-! ## Write-through and start-up evaluations -/

/-- C11 (evaluation). `flight_Request` and `flight_DeleteMission` do not call
`saveMissions`. With the mission store holding the three seed missions, a
request leaves a table of four missions and a deletion a table of two, while
the store still holds the text saved for three, which is not what
`saveMissions` writes for either resulting table. -/
theorem flight_Request_skips_saveMissions (showDouble : Money → Str) :
    ∃ t1 l1 fs1 t2,
      flight_Request "flight".toList "Artemis".toList "SLS".toList [1, 3, 4]
        "2026-01-15".toList seedMissions Logs.empty
        (saveMissions showDouble 3 seedMissions.names seedMissions.status
          seedMissions.requesters seedMissions.costs 50 seedMissions.dates Files.absent)
        = some (t1, l1, fs1) ∧
      t1.count = 4 ∧ t1.names 3 = "Artemis".toList ∧ t1.status 3 = "Pending".toList ∧
      fs1.missions
        = some (saveMissionsText showDouble 3 seedMissions.names seedMissions.status
            seedMissions.requesters seedMissions.costs 50 seedMissions.dates) ∧
      fs1.missions
        ≠ some (saveMissionsText showDouble t1.count t1.names t1.status t1.requesters
            t1.costs 50 t1.dates) ∧
      flight_DeleteMission [2] seedMissions = some t2 ∧ t2.count = 2 ∧
      some (saveMissionsText showDouble 3 seedMissions.names seedMissions.status
            seedMissions.requesters seedMissions.costs 50 seedMissions.dates)
        ≠ some (saveMissionsText showDouble t2.count t2.names t2.status t2.requesters
            t2.costs 50 t2.dates) := by
  refine ⟨_, _, _, _, rfl, rfl, by decide, by decide, rfl, ?_, rfl, rfl, ?_⟩
  · intro h
    have h2 : some (some '3') = some (some '4') :=
      congrArg (fun o : Option Str => o.map List.head?) h
    exact absurd h2 (by decide)
  · intro h
    have h2 : some (some '3') = some (some '2') :=
      congrArg (fun o : Option Str => o.map List.head?) h
    exact absurd h2 (by decide)

/-- C12 (evaluation). `admin_Hiring` changes the role in memory but never calls
`saveUsers`: approving the application of user "orion77" (position 3) for the
role "engineer" sets `roles[3]` to "engineer" and marks the application
"Approved", while the user store keeps the text saved before, from which
`loadUsers` still returns the role "visitor". -/
theorem admin_Hiring_skips_saveUsers :
    ∃ roles1 h1 a1 l1 fs1,
      admin_Hiring 'a' [1] visitorUsers.usernames visitorUsers.roles visitorUsers.count
        sampleHires Astronauts.empty Logs.empty
        (saveUsers visitorUsers.usernames visitorUsers.passwords visitorUsers.roles
          visitorUsers.departments visitorUsers.count Files.absent)
        = some (roles1, h1, a1, l1, fs1) ∧
      roles1 3 = "engineer".toList ∧ h1.status 0 = "Approved".toList ∧
      fs1.users
        = some ("4\nthemystery,29July1958,admin,HQ\nflight,flight123,staff,FLT\n"
            ++ "eng,engineer1,staff,ENG\norion77,Apollo#11,visitor,GEN\n").toList ∧
      (loadUsers fs1 Users.empty).count = 4 ∧
      (loadUsers fs1 Users.empty).recordAt 3
        = ("orion77".toList, "Apollo#11".toList, "visitor".toList, "GEN".toList) :=
  ⟨_, _, _, _, _, rfl, by decide, by decide, by decide, by decide, by decide⟩

/-- C20 (evaluation). At start-up `init_Missions` seeds three missions and
`loadMissions` then resets the counter whenever the store opens: with the store
`"0,50"` the mission table ends with count 0, with no store it ends with the
three seed missions and count 3. -/
theorem init_Database_missions_empty_store (bud0 : Money) :
    (init_Database_missions bud0 (missionsStore "0,50\n") Missions.empty 50).1.count = 0 ∧
    (init_Database_missions bud0 Files.absent Missions.empty 50).1.count = 3 ∧
    (init_Database_missions bud0 Files.absent Missions.empty 50).1.names 0
      = "Freedom 7".toList ∧
    (init_Database_missions bud0 Files.absent Missions.empty 50).1.names 2
      = "Friendship 7".toList := by
  refine ⟨?_, rfl, rfl, rfl⟩
  have hI : readInt "0,50\n".toList = some (0, ",50\n".toList) := by decide
  have hC : readChar ",50\n".toList = some (',', "50\n".toList) := by decide
  have hD : readDouble "50\n".toList = Extraction.value 50 "\n".toList := by decide!
  simp only [init_Database_missions, loadMissions, missionsStore, Files.absent, hI, hC, hD]
  rfl

/-! ## Inventory end to end -/

theorem loadInventoryLoop_widget :
    (loadInventoryLoop 1 0 "Widget,Structure,10,pcs,0.01\n".toList Inventory.empty).recordAt 0
      = ("Widget".toList, "Structure".toList, 10, "pcs".toList, 1 / 100) := by
  decide!

/-- C13. End-to-end inventory example, for a stream library that prints the
amounts 10 and 0.01 as `10` and `0.01`: from an empty inventory table,
`eng_AddInventory` of ("Widget", "Structure", 10, "pcs", 0.01), which saves,
followed by `loadInventory` into an empty table gives count 1 and that record;
`eng_DeleteInventory` of id 1, which saves, followed by `loadInventory` into an
empty table gives count 0. -/
theorem inventory_end_to_end (showDouble : Money → Str) (junk : Int) (fs : Files)
    (h10 : showDouble 10 = "10".toList) (h001 : showDouble (1 / 100) = "0.01".toList) :
    ∃ t1 fs1 t2 fs2,
      eng_AddInventory showDouble "Widget".toList "Structure".toList "pcs".toList
        [10] [1 / 100] Inventory.empty fs = some (t1, fs1) ∧
      t1.count = 1 ∧
      t1.recordAt 0 = ("Widget".toList, "Structure".toList, 10, "pcs".toList, 1 / 100) ∧
      (loadInventory junk fs1 Inventory.empty).count = 1 ∧
      (loadInventory junk fs1 Inventory.empty).recordAt 0
        = ("Widget".toList, "Structure".toList, 10, "pcs".toList, 1 / 100) ∧
      eng_DeleteInventory showDouble [1] t1 fs1 = some (t2, fs2) ∧
      t2.count = 0 ∧
      (loadInventory junk fs2 Inventory.empty).count = 0 := by
  have hq : getDouble 1 10000 [10] = some 10 := by decide!
  have hc : getDouble (1 / 1000) 100 [1 / 100] = some (1 / 100) := by decide!
  have htext : saveInventoryText showDouble 1 (Inventory.empty.names.set 0 "Widget".toList)
      (Inventory.empty.cats.set 0 "Structure".toList) (Inventory.empty.qtys.set 0 10)
      (Inventory.empty.units.set 0 "pcs".toList) (Inventory.empty.costs.set 0 (1 / 100))
      = "1\nWidget,Structure,10,pcs,0.01\n".toList := by
    simp [saveInventoryText, showInt, Arr.set, List.range, List.range.loop, h10, h001]
    rfl
  have hadd : eng_AddInventory showDouble "Widget".toList "Structure".toList "pcs".toList
      [10] [1 / 100] Inventory.empty fs
      = some (⟨Inventory.empty.names.set 0 "Widget".toList,
          Inventory.empty.cats.set 0 "Structure".toList,
          Inventory.empty.qtys.set 0 10,
          Inventory.empty.units.set 0 "pcs".toList,
          Inventory.empty.costs.set 0 (1 / 100), 1⟩,
        { fs with inv := some "1\nWidget,Structure,10,pcs,0.01\n".toList }) := by
    unfold eng_AddInventory
    rw [if_neg (by decide), hq, hc, ← htext]
    rfl
  have hload : loadInventory junk
      { fs with inv := some "1\nWidget,Structure,10,pcs,0.01\n".toList } Inventory.empty
      = loadInventoryLoop 1 0 "Widget,Structure,10,pcs,0.01\n".toList Inventory.empty := rfl
  refine ⟨_, _, _, _, hadd, rfl, rfl, ?_, ?_, rfl, rfl, rfl⟩
  · rw [hload]
    rfl
  · rw [hload]
    exact loadInventoryLoop_widget

/-- Witness for C13. -/
theorem inventory_end_to_end_witness :
    ∃ t1 fs1 t2 fs2,
      eng_AddInventory showExample "Widget".toList "Structure".toList "pcs".toList
        [10] [1 / 100] Inventory.empty Files.absent = some (t1, fs1) ∧
      t1.count = 1 ∧
      t1.recordAt 0 = ("Widget".toList, "Structure".toList, 10, "pcs".toList, 1 / 100) ∧
      (loadInventory 0 fs1 Inventory.empty).count = 1 ∧
      (loadInventory 0 fs1 Inventory.empty).recordAt 0
        = ("Widget".toList, "Structure".toList, 10, "pcs".toList, 1 / 100) ∧
      eng_DeleteInventory showExample [1] t1 fs1 = some (t2, fs2) ∧
      t2.count = 0 ∧
      (loadInventory 0 fs2 Inventory.empty).count = 0 :=
  inventory_end_to_end showExample 0 Files.absent (by decide!) (by decide!)

/-! ## Loading missions -/

/-- Decoding a mission line of five fields whose first four hold no comma. -/
theorem loadMissionsLine_fields (a b c d e : Str) (i : Nat) (t : Missions)
    (ha : ',' ∉ a) (hb : ',' ∉ b) (hc : ',' ∉ c) (hd : ',' ∉ d)
    (hlen : (a ++ ',' :: (b ++ ',' :: (c ++ ',' :: (d ++ ',' :: e)))).length < NPOS) :
    loadMissionsLine (a ++ ',' :: (b ++ ',' :: (c ++ ',' :: (d ++ ',' :: e)))) i t =
      { names := t.names.set i a
        status := t.status.set i b
        requesters := t.requesters.set i c
        costs := t.costs.set i (safeStod d)
        dates := t.dates.set i e
        codes := t.codes.set i ("MSN-".toList ++ showInt ((i : Int) + 101))
        vehicles := t.vehicles.set i "TBD".toList
        budgets := t.budgets.set i (safeStod d)
        count := t.count + 1 } := by
  have hN : NPOS = 2 ^ 64 - 1 := rfl
  simp only [List.length_append, List.length_cons] at hlen
  have e2 : a ++ ',' :: (b ++ ',' :: (c ++ ',' :: (d ++ ',' :: e)))
      = (a ++ [',']) ++ (b ++ ',' :: (c ++ ',' :: (d ++ ',' :: e))) := by simp
  have e3 : a ++ ',' :: (b ++ ',' :: (c ++ ',' :: (d ++ ',' :: e)))
      = (a ++ ',' :: (b ++ [','])) ++ (c ++ ',' :: (d ++ ',' :: e)) := by simp
  have e4 : a ++ ',' :: (b ++ ',' :: (c ++ ',' :: (d ++ ',' :: e)))
      = (a ++ ',' :: (b ++ ',' :: (c ++ [',']))) ++ (d ++ ',' :: e) := by simp
  have e5 : a ++ ',' :: (b ++ ',' :: (c ++ ',' :: (d ++ ',' :: e)))
      = (a ++ ',' :: (b ++ ',' :: (c ++ ',' :: (d ++ [','])))) ++ e := by simp
  have l2 : (a ++ [',']).length = a.length + 1 := by simp
  have l3 : (a ++ ',' :: (b ++ [','])).length = a.length + 1 + (b.length + 1) := by
    simp; omega
  have l4 : (a ++ ',' :: (b ++ ',' :: (c ++ [',']))).length
      = a.length + 1 + (b.length + 1) + (c.length + 1) := by
    simp; omega
  have l5 : (a ++ ',' :: (b ++ ',' :: (c ++ ',' :: (d ++ [','])))).length
      = a.length + 1 + (b.length + 1) + (c.length + 1) + (d.length + 1) := by
    simp; omega
  have p1 : find (a ++ ',' :: (b ++ ',' :: (c ++ ',' :: (d ++ ',' :: e)))) ',' 0 = a.length := by
    have := find_at [] a (b ++ ',' :: (c ++ ',' :: (d ++ ',' :: e))) ha
    simpa using this
  have a1 : addSz a.length 1 = a.length + 1 := addSz_small _ _ (by omega)
  have p2 : find (a ++ ',' :: (b ++ ',' :: (c ++ ',' :: (d ++ ',' :: e)))) ',' (a.length + 1)
      = a.length + 1 + b.length := by
    have := find_at (a ++ [',']) b (c ++ ',' :: (d ++ ',' :: e)) hb
    rw [← e2, l2] at this
    exact this
  have a2 : addSz (a.length + 1 + b.length) 1 = a.length + 1 + (b.length + 1) :=
    addSz_small _ _ (by omega)
  have p3 : find (a ++ ',' :: (b ++ ',' :: (c ++ ',' :: (d ++ ',' :: e)))) ','
      (a.length + 1 + (b.length + 1)) = a.length + 1 + (b.length + 1) + c.length := by
    have := find_at (a ++ ',' :: (b ++ [','])) c (d ++ ',' :: e) hc
    rw [← e3, l3] at this
    exact this
  have a3 : addSz (a.length + 1 + (b.length + 1) + c.length) 1
      = a.length + 1 + (b.length + 1) + (c.length + 1) := addSz_small _ _ (by omega)
  have p4 : find (a ++ ',' :: (b ++ ',' :: (c ++ ',' :: (d ++ ',' :: e)))) ','
      (a.length + 1 + (b.length + 1) + (c.length + 1))
      = a.length + 1 + (b.length + 1) + (c.length + 1) + d.length := by
    have := find_at (a ++ ',' :: (b ++ ',' :: (c ++ [',']))) d e hd
    rw [← e4, l4] at this
    exact this
  have a4 : addSz (a.length + 1 + (b.length + 1) + (c.length + 1) + d.length) 1
      = a.length + 1 + (b.length + 1) + (c.length + 1) + (d.length + 1) :=
    addSz_small _ _ (by omega)
  have s1 : subSz (subSz (a.length + 1 + b.length) a.length) 1 = b.length := by
    have h1 : subSz (a.length + (1 + b.length)) a.length = 1 + b.length :=
      subSz_small _ _ (by omega)
    rw [Nat.add_assoc, h1]
    exact subSz_small 1 b.length (by omega)
  have s2 : subSz (subSz (a.length + 1 + (b.length + 1) + c.length) (a.length + 1 + b.length)) 1
      = c.length := by
    have h1 : subSz (a.length + 1 + b.length + (1 + c.length)) (a.length + 1 + b.length)
        = 1 + c.length := subSz_small _ _ (by omega)
    have h0 : a.length + 1 + (b.length + 1) + c.length
        = a.length + 1 + b.length + (1 + c.length) := by omega
    rw [h0, h1]
    exact subSz_small 1 c.length (by omega)
  have s3 : subSz (subSz (a.length + 1 + (b.length + 1) + (c.length + 1) + d.length)
      (a.length + 1 + (b.length + 1) + c.length)) 1 = d.length := by
    have h1 : subSz (a.length + 1 + (b.length + 1) + c.length + (1 + d.length))
        (a.length + 1 + (b.length + 1) + c.length) = 1 + d.length :=
      subSz_small _ _ (by omega)
    have h0 : a.length + 1 + (b.length + 1) + (c.length + 1) + d.length
        = a.length + 1 + (b.length + 1) + c.length + (1 + d.length) := by omega
    rw [h0, h1]
    exact subSz_small 1 d.length (by omega)
  have q1 : substr (a ++ ',' :: (b ++ ',' :: (c ++ ',' :: (d ++ ',' :: e)))) 0 a.length = a := by
    have := substr_at [] a (',' :: (b ++ ',' :: (c ++ ',' :: (d ++ ',' :: e)))) a.length rfl
    simpa using this
  have q2 : substr (a ++ ',' :: (b ++ ',' :: (c ++ ',' :: (d ++ ',' :: e))))
      (a.length + 1) b.length = b := by
    have := substr_at (a ++ [',']) b (',' :: (c ++ ',' :: (d ++ ',' :: e))) b.length rfl
    rw [← e2, l2] at this
    exact this
  have q3 : substr (a ++ ',' :: (b ++ ',' :: (c ++ ',' :: (d ++ ',' :: e))))
      (a.length + 1 + (b.length + 1)) c.length = c := by
    have := substr_at (a ++ ',' :: (b ++ [','])) c (',' :: (d ++ ',' :: e)) c.length rfl
    rw [← e3, l3] at this
    exact this
  have q4 : substr (a ++ ',' :: (b ++ ',' :: (c ++ ',' :: (d ++ ',' :: e))))
      (a.length + 1 + (b.length + 1) + (c.length + 1)) d.length = d := by
    have := substr_at (a ++ ',' :: (b ++ ',' :: (c ++ [',']))) d (',' :: e) d.length rfl
    rw [← e4, l4] at this
    exact this
  have q5 : substr (a ++ ',' :: (b ++ ',' :: (c ++ ',' :: (d ++ ',' :: e))))
      (a.length + 1 + (b.length + 1) + (c.length + 1) + (d.length + 1)) NPOS = e := by
    have := substr_end (a ++ ',' :: (b ++ ',' :: (c ++ ',' :: (d ++ [','])))) e NPOS (by omega)
    rw [← e5, l5] at this
    exact this
  unfold loadMissionsLine
  simp only [p1, a1, p2, a2, p3, a3, p4, a4, s1, s2, s3, q1, q2, q3, q4, q5]
  rw [if_pos (by omega)]

theorem loadMissionsLine_frame (line : Str) (i : Nat) (t : Missions) (j : Nat) (h : j ≠ i) :
    (loadMissionsLine line i t).recordAt j = t.recordAt j := by
  unfold loadMissionsLine
  simp only
  split
  · simp [Missions.recordAt, Arr.set, h]
  · rfl

/-- The mission load loop started at index `i` writes no position below `i`. -/
theorem loadMissionsLoop_frame : ∀ (n i : Nat) (f : Str) (t : Missions) (j : Nat), j < i →
    (loadMissionsLoop n i f t).recordAt j = t.recordAt j := by
  intro n
  induction n with
  | zero => intro i f t j _; rfl
  | succ n ih =>
    intro i f t j hj
    unfold loadMissionsLoop
    cases hg : getline f with
    | none => simpa using ih (i + 1) f t j (by omega)
    | some lr =>
      obtain ⟨line, rest⟩ := lr
      simp only
      rw [ih (i + 1) rest _ j (by omega)]
      exact loadMissionsLine_frame line i t j (by omega)

/-- The record left at position `k + i` by the load loop started at index `k` is
the one decoded from the `i`-th line of the unread text. -/
theorem loadMissionsLoop_line : ∀ (lines : List Str) (n k i : Nat) (t : Missions)
    (tail line : Str), (∀ l ∈ lines, '\n' ∉ l) → i < n → lines[i]? = some line →
    ∃ t1, (loadMissionsLoop n k (linesText lines ++ tail) t).recordAt (k + i)
      = (loadMissionsLine line (k + i) t1).recordAt (k + i) := by
  intro lines
  induction lines with
  | nil => intro n k i t tail line _ _ h; simp at h
  | cons l ls ih =>
    intro n k i t tail line hnl hn hline
    obtain ⟨m, rfl⟩ : ∃ m, n = m + 1 := ⟨n - 1, by omega⟩
    have hl : '\n' ∉ l := hnl l (List.mem_cons_self _ _)
    have htext : linesText (l :: ls) ++ tail = l ++ '\n' :: (linesText ls ++ tail) := by
      simp [linesText]
    have hstep : loadMissionsLoop (m + 1) k (linesText (l :: ls) ++ tail) t
        = loadMissionsLoop m (k + 1) (linesText ls ++ tail) (loadMissionsLine l k t) := by
      rw [htext]
      conv_lhs => unfold loadMissionsLoop
      rw [getline_line _ _ hl]
    rw [hstep]
    cases i with
    | zero =>
      simp only [List.getElem?_cons_zero, Option.some.injEq] at hline
      subst hline
      refine ⟨t, ?_⟩
      simp only [Nat.add_zero]
      exact loadMissionsLoop_frame m (k + 1) _ _ k (by omega)
    | succ i =>
      simp only [List.getElem?_cons_succ] at hline
      have hk : k + (i + 1) = k + 1 + i := by omega
      rw [hk]
      exact ih m (k + 1) i (loadMissionsLine l k t) tail line
        (fun x hx => hnl x (List.mem_cons_of_mem _ hx)) (by omega) hline

/-- C19. Mission load synthesises the unsaved fields: when the store opens, the
three extractions `f >> cnt >> c >> bud` of its header succeed and the `i`-th
record line (`i` below the header count and below `MAX_MISSIONS`) has five
fields `a,b,c,d,e` (at least four commas, the first four fields comma-free),
`loadMissions` leaves at position `i` the name `a`, status `b`, requester `c`,
cost `safeStod d` and date `e`, the code "MSN-" followed by the decimal of
`i + 101`, the vehicle "TBD" and the budget `safeStod d`. -/
theorem loadMissions_synthesises (bud0 : Money) (fs : Files) (t : Missions)
    (agencyBudget : Money) (text r1 r2 r3 tail : Str) (cnt : Int) (ch : Char) (bud : Money)
    (lines : List Str) (i : Nat) (a b c d e : Str)
    (hstore : fs.missions = some text)
    (hcnt : readInt text = some (cnt, r1)) (hch : readChar r1 = some (ch, r2))
    (hbud : readDouble r2 = Extraction.value bud r3)
    (hlines : ignore 1000 r3 = linesText lines ++ tail)
    (hnl : ∀ l ∈ lines, '\n' ∉ l)
    (hi : (i : Int) < cnt) (himax : (i : Int) < MAX_MISSIONS)
    (hline : lines[i]? = some (a ++ ',' :: (b ++ ',' :: (c ++ ',' :: (d ++ ',' :: e)))))
    (ha : ',' ∉ a) (hb : ',' ∉ b) (hc : ',' ∉ c) (hd : ',' ∉ d)
    (hlen : (a ++ ',' :: (b ++ ',' :: (c ++ ',' :: (d ++ ',' :: e)))).length < NPOS) :
    (loadMissions bud0 fs t agencyBudget).1.recordAt i
      = (a, "MSN-".toList ++ showInt ((i : Int) + 101), e, "TBD".toList, b, safeStod d, c,
          safeStod d) := by
  have hn : i < (min cnt MAX_MISSIONS).toNat := by
    have : (i : Int) < min cnt MAX_MISSIONS := lt_min hi himax
    omega
  obtain ⟨t1, h1⟩ := loadMissionsLoop_line lines (min cnt MAX_MISSIONS).toNat 0 i
    { t with count := 0 } tail _ hnl hn hline
  rw [Nat.zero_add] at h1
  have hload : (loadMissions bud0 fs t agencyBudget).1
      = loadMissionsLoop (min cnt MAX_MISSIONS).toNat 0 (linesText lines ++ tail)
          { t with count := 0 } := by
    unfold loadMissions
    rw [hstore]
    simp only [hcnt, hch, hbud, hlines]
  rw [hload, h1, loadMissionsLine_fields a b c d e i t1 ha hb hc hd hlen]
  simp [Missions.recordAt, Arr.set]

theorem readDouble_fifty :
    readDouble "50\nbad\nApollo,Planned,flight,0.7,2026-01-01\n".toList
      = Extraction.value 50 "\nbad\nApollo,Planned,flight,0.7,2026-01-01\n".toList := by
  decide!

/-- Witness for C19: the second record line of a store whose first line is
malformed; the record loaded at position 1 has the code "MSN-102" and the
amount 0.7 as cost and as budget. -/
theorem loadMissions_synthesises_witness :
    (loadMissions 0 (missionsStore "2,50\nbad\nApollo,Planned,flight,0.7,2026-01-01\n")
        Missions.empty 50).1.recordAt 1
      = ("Apollo".toList, "MSN-".toList ++ showInt (((1 : Nat) : Int) + 101),
          "2026-01-01".toList, "TBD".toList, "Planned".toList, safeStod "0.7".toList,
          "flight".toList, safeStod "0.7".toList) ∧
    (loadMissions 0 (missionsStore "2,50\nbad\nApollo,Planned,flight,0.7,2026-01-01\n")
        Missions.empty 50).1.codes 1 = "MSN-102".toList ∧
    (loadMissions 0 (missionsStore "2,50\nbad\nApollo,Planned,flight,0.7,2026-01-01\n")
        Missions.empty 50).1.vehicles 1 = "TBD".toList ∧
    (loadMissions 0 (missionsStore "2,50\nbad\nApollo,Planned,flight,0.7,2026-01-01\n")
        Missions.empty 50).1.budgets 1 = 7 / 10 ∧
    (loadMissions 0 (missionsStore "2,50\nbad\nApollo,Planned,flight,0.7,2026-01-01\n")
        Missions.empty 50).1.costs 1 = 7 / 10 :=
  ⟨loadMissions_synthesises 0
    (missionsStore "2,50\nbad\nApollo,Planned,flight,0.7,2026-01-01\n")
    Missions.empty 50 "2,50\nbad\nApollo,Planned,flight,0.7,2026-01-01\n".toList
    ",50\nbad\nApollo,Planned,flight,0.7,2026-01-01\n".toList
    "50\nbad\nApollo,Planned,flight,0.7,2026-01-01\n".toList
    "\nbad\nApollo,Planned,flight,0.7,2026-01-01\n".toList [] 2 ',' 50
    ["bad".toList, "Apollo,Planned,flight,0.7,2026-01-01".toList] 1
    "Apollo".toList "Planned".toList "flight".toList "0.7".toList "2026-01-01".toList
    rfl (by decide) (by decide) readDouble_fifty (by decide) (by decide) (by decide)
    (by decide) (by decide) (by decide) (by decide) (by decide) (by decide) (by decide),
    by decide!, by decide!, by decide!, by decide!⟩

/-- A header whose amount cannot be extracted loads nothing: with a dangling
exponent mark (`50e`) the agency budget becomes 0, with a number too large for
a `double` (`1e999`) it becomes the largest finite `double`; in both cases the
count is 0 and the record line is not read. -/
theorem loadMissions_failed_header :
    (loadMissions 0 (missionsStore "1,50e\nApollo,Planned,flight,0.7,2026-01-01\n")
        Missions.empty 50).1.count = 0 ∧
    (loadMissions 0 (missionsStore "1,50e\nApollo,Planned,flight,0.7,2026-01-01\n")
        Missions.empty 50).1.names 0 = [] ∧
    (loadMissions 0 (missionsStore "1,50e\nApollo,Planned,flight,0.7,2026-01-01\n")
        Missions.empty 50).2 = 0 ∧
    (loadMissions 0 (missionsStore "1,1e999\nApollo,Planned,flight,0.7,2026-01-01\n")
        Missions.empty 50).1.count = 0 ∧
    (loadMissions 0 (missionsStore "1,1e999\nApollo,Planned,flight,0.7,2026-01-01\n")
        Missions.empty 50).1.names 0 = [] ∧
    (loadMissions 0 (missionsStore "1,1e999\nApollo,Planned,flight,0.7,2026-01-01\n")
        Missions.empty 50).2 = Money.fin DBL_MAX := by
  refine ⟨by decide!, by decide!, by decide!, by decide!, by decide!, by decide!⟩

/-- The values of `safeStod` on tokens of each kind: decimal, not a number,
infinity, NaN, hexadecimal, and numbers outside the range of a `double`. -/
theorem safeStod_values :
    safeStod "10".toList = 10 ∧ safeStod "0.01".toList = 1 / 100 ∧
    safeStod "abc".toList = 0 ∧ safeStod "".toList = 0 ∧
    safeStod "inf".toList = Money.pinf ∧ safeStod "-INF".toList = Money.ninf ∧
    safeStod "nan".toList = Money.nan ∧ safeStod "0x1A".toList = 26 ∧
    safeStod "1e999".toList = 0 ∧ safeStod "1e-400".toList = 0 ∧
    safeStod "-0".toList = Money.negZero := by
  refine ⟨by decide!, by decide!, by decide!, by decide!, by decide!, by decide!, by decide!,
    by decide!, by decide!, by decide!, by decide!⟩

/-- The equipment loop adds the costs as `double` values: 0.5 + 0.1 + 0.5 + 0.1 is
the `double` 1.2000000000000002, not the `double` nearest to 1.2. -/
theorem requisition_adds_doubles :
    requisition (1 / 2) [1, 2, 1, 4]
      = some (Money.fin (1351079888211149 / 1125899906842624)) ∧
    requisition (1 / 2) [1, 2, 1, 4] ≠ some (12 / 10) := by
  refine ⟨by decide!, by decide!⟩

/-! ## Capacity on load -/

/-- C21 (evaluation). `loadInventory` has no capacity bound: from a store with
header 501 and 501 well-formed lines it ends with count 501, above
`MAX_INVENTORY` = 500, and writes a record at position 500, past the end of the
arrays. -/
theorem loadInventory_exceeds_capacity :
    (loadInventory 0 oversizedInventory Inventory.empty).count = 501 ∧
    MAX_INVENTORY < (loadInventory 0 oversizedInventory Inventory.empty).count ∧
    (loadInventory 0 oversizedInventory Inventory.empty).names 500 = "w".toList ∧
    Inventory.empty.names 500 = [] := by
  decide!

/-! ## Tolerant numeric parse -/

/-- Decoding an inventory line of five fields whose first four hold no comma. -/
theorem loadInventoryLine_fields (a b c d e : Str) (i : Nat) (t : Inventory)
    (ha : ',' ∉ a) (hb : ',' ∉ b) (hc : ',' ∉ c) (hd : ',' ∉ d)
    (hlen : (a ++ ',' :: (b ++ ',' :: (c ++ ',' :: (d ++ ',' :: e)))).length < NPOS) :
    loadInventoryLine (a ++ ',' :: (b ++ ',' :: (c ++ ',' :: (d ++ ',' :: e)))) i t =
      { names := t.names.set i a
        cats := t.cats.set i b
        qtys := t.qtys.set i (safeStod c)
        units := t.units.set i d
        costs := t.costs.set i (safeStod e)
        count := t.count + 1 } := by
  have hN : NPOS = 2 ^ 64 - 1 := rfl
  simp only [List.length_append, List.length_cons] at hlen
  have e2 : a ++ ',' :: (b ++ ',' :: (c ++ ',' :: (d ++ ',' :: e)))
      = (a ++ [',']) ++ (b ++ ',' :: (c ++ ',' :: (d ++ ',' :: e))) := by simp
  have e3 : a ++ ',' :: (b ++ ',' :: (c ++ ',' :: (d ++ ',' :: e)))
      = (a ++ ',' :: (b ++ [','])) ++ (c ++ ',' :: (d ++ ',' :: e)) := by simp
  have e4 : a ++ ',' :: (b ++ ',' :: (c ++ ',' :: (d ++ ',' :: e)))
      = (a ++ ',' :: (b ++ ',' :: (c ++ [',']))) ++ (d ++ ',' :: e) := by simp
  have e5 : a ++ ',' :: (b ++ ',' :: (c ++ ',' :: (d ++ ',' :: e)))
      = (a ++ ',' :: (b ++ ',' :: (c ++ ',' :: (d ++ [','])))) ++ e := by simp
  have l2 : (a ++ [',']).length = a.length + 1 := by simp
  have l3 : (a ++ ',' :: (b ++ [','])).length = a.length + 1 + (b.length + 1) := by
    simp; omega
  have l4 : (a ++ ',' :: (b ++ ',' :: (c ++ [',']))).length
      = a.length + 1 + (b.length + 1) + (c.length + 1) := by
    simp; omega
  have l5 : (a ++ ',' :: (b ++ ',' :: (c ++ ',' :: (d ++ [','])))).length
      = a.length + 1 + (b.length + 1) + (c.length + 1) + (d.length + 1) := by
    simp; omega
  have p1 : find (a ++ ',' :: (b ++ ',' :: (c ++ ',' :: (d ++ ',' :: e)))) ',' 0 = a.length := by
    have := find_at [] a (b ++ ',' :: (c ++ ',' :: (d ++ ',' :: e))) ha
    simpa using this
  have a1 : addSz a.length 1 = a.length + 1 := addSz_small _ _ (by omega)
  have p2 : find (a ++ ',' :: (b ++ ',' :: (c ++ ',' :: (d ++ ',' :: e)))) ',' (a.length + 1)
      = a.length + 1 + b.length := by
    have := find_at (a ++ [',']) b (c ++ ',' :: (d ++ ',' :: e)) hb
    rw [← e2, l2] at this
    exact this
  have a2 : addSz (a.length + 1 + b.length) 1 = a.length + 1 + (b.length + 1) :=
    addSz_small _ _ (by omega)
  have p3 : find (a ++ ',' :: (b ++ ',' :: (c ++ ',' :: (d ++ ',' :: e)))) ','
      (a.length + 1 + (b.length + 1)) = a.length + 1 + (b.length + 1) + c.length := by
    have := find_at (a ++ ',' :: (b ++ [','])) c (d ++ ',' :: e) hc
    rw [← e3, l3] at this
    exact this
  have a3 : addSz (a.length + 1 + (b.length + 1) + c.length) 1
      = a.length + 1 + (b.length + 1) + (c.length + 1) := addSz_small _ _ (by omega)
  have p4 : find (a ++ ',' :: (b ++ ',' :: (c ++ ',' :: (d ++ ',' :: e)))) ','
      (a.length + 1 + (b.length + 1) + (c.length + 1))
      = a.length + 1 + (b.length + 1) + (c.length + 1) + d.length := by
    have := find_at (a ++ ',' :: (b ++ ',' :: (c ++ [',']))) d e hd
    rw [← e4, l4] at this
    exact this
  have a4 : addSz (a.length + 1 + (b.length + 1) + (c.length + 1) + d.length) 1
      = a.length + 1 + (b.length + 1) + (c.length + 1) + (d.length + 1) :=
    addSz_small _ _ (by omega)
  have s1 : subSz (subSz (a.length + 1 + b.length) a.length) 1 = b.length := by
    have h1 : subSz (a.length + (1 + b.length)) a.length = 1 + b.length :=
      subSz_small _ _ (by omega)
    rw [Nat.add_assoc, h1]
    exact subSz_small 1 b.length (by omega)
  have s2 : subSz (subSz (a.length + 1 + (b.length + 1) + c.length) (a.length + 1 + b.length)) 1
      = c.length := by
    have h1 : subSz (a.length + 1 + b.length + (1 + c.length)) (a.length + 1 + b.length)
        = 1 + c.length := subSz_small _ _ (by omega)
    have h0 : a.length + 1 + (b.length + 1) + c.length
        = a.length + 1 + b.length + (1 + c.length) := by omega
    rw [h0, h1]
    exact subSz_small 1 c.length (by omega)
  have s3 : subSz (subSz (a.length + 1 + (b.length + 1) + (c.length + 1) + d.length)
      (a.length + 1 + (b.length + 1) + c.length)) 1 = d.length := by
    have h1 : subSz (a.length + 1 + (b.length + 1) + c.length + (1 + d.length))
        (a.length + 1 + (b.length + 1) + c.length) = 1 + d.length :=
      subSz_small _ _ (by omega)
    have h0 : a.length + 1 + (b.length + 1) + (c.length + 1) + d.length
        = a.length + 1 + (b.length + 1) + c.length + (1 + d.length) := by omega
    rw [h0, h1]
    exact subSz_small 1 d.length (by omega)
  have q1 : substr (a ++ ',' :: (b ++ ',' :: (c ++ ',' :: (d ++ ',' :: e)))) 0 a.length = a := by
    have := substr_at [] a (',' :: (b ++ ',' :: (c ++ ',' :: (d ++ ',' :: e)))) a.length rfl
    simpa using this
  have q2 : substr (a ++ ',' :: (b ++ ',' :: (c ++ ',' :: (d ++ ',' :: e))))
      (a.length + 1) b.length = b := by
    have := substr_at (a ++ [',']) b (',' :: (c ++ ',' :: (d ++ ',' :: e))) b.length rfl
    rw [← e2, l2] at this
    exact this
  have q3 : substr (a ++ ',' :: (b ++ ',' :: (c ++ ',' :: (d ++ ',' :: e))))
      (a.length + 1 + (b.length + 1)) c.length = c := by
    have := substr_at (a ++ ',' :: (b ++ [','])) c (',' :: (d ++ ',' :: e)) c.length rfl
    rw [← e3, l3] at this
    exact this
  have q4 : substr (a ++ ',' :: (b ++ ',' :: (c ++ ',' :: (d ++ ',' :: e))))
      (a.length + 1 + (b.length + 1) + (c.length + 1)) d.length = d := by
    have := substr_at (a ++ ',' :: (b ++ ',' :: (c ++ [',']))) d (',' :: e) d.length rfl
    rw [← e4, l4] at this
    exact this
  have q5 : substr (a ++ ',' :: (b ++ ',' :: (c ++ ',' :: (d ++ ',' :: e))))
      (a.length + 1 + (b.length + 1) + (c.length + 1) + (d.length + 1)) NPOS = e := by
    have := substr_end (a ++ ',' :: (b ++ ',' :: (c ++ ',' :: (d ++ [','])))) e NPOS (by omega)
    rw [← e5, l5] at this
    exact this
  unfold loadInventoryLine
  simp only [p1, a1, p2, a2, p3, a3, p4, a4, s1, s2, s3, q1, q2, q3, q4, q5]
  rw [if_pos (by omega)]

/-- Where no number starts there is no hexadecimal number. -/
theorem parseHex_none (r : Str) (h : startsNumber r = false) : parseHex r = none := by
  cases r with
  | nil => rfl
  | cons c r1 =>
    have hc : c.isDigit = false := by
      simp only [startsNumber, Bool.or_eq_false_iff] at h
      exact h.2.1
    have h0 : c ≠ '0' := by
      intro h0
      rw [h0] at hc
      exact absurd hc (by decide)
    unfold parseHex
    split
    · rename_i heq
      simp only [List.cons.injEq] at heq
      exact absurd heq.1 h0
    · rfl

/-- Where no number starts there is no decimal number. -/
theorem parseDecimal_none (r : Str) (h : startsNumber r = false) : parseDecimal r = none := by
  cases r with
  | nil => rfl
  | cons c r1 =>
    have hc : c.isDigit = false := by
      simp only [startsNumber, Bool.or_eq_false_iff] at h
      exact h.2.1
    by_cases hp : c = '.'
    · subst hp
      cases r1 with
      | nil => rfl
      | cons d r2 =>
        have hd : d.isDigit = false := by
          simp only [startsNumber, Bool.or_eq_false_iff] at h
          simpa using h.2.2
        simp [parseDecimal, readFraction, List.takeWhile, List.dropWhile, hd]
    · have hm : readFraction Char.isDigit (c :: r1) = ([], c :: r1) := by
        unfold readFraction
        split
        · rename_i heq
          simp only [List.cons.injEq] at heq
          exact absurd heq.1 hp
        · rfl
      simp [parseDecimal, List.takeWhile, List.dropWhile, hc, hm]

/-- A token that is not a number makes `stod` throw. -/
theorem stod_notNumber (tok : Str) (h : notNumber tok) : stod tok = none := by
  unfold notNumber at h
  have h1 : ((readSign tok).2.take 3).map Char.toLower ≠ "inf".toList := by
    intro hh
    simp [startsNumber, hh] at h
  have h2 : ((readSign tok).2.take 3).map Char.toLower ≠ "nan".toList := by
    intro hh
    simp [startsNumber, hh] at h
  unfold stod
  simp only [if_neg h1, if_neg h2, parseHex_none _ h, parseDecimal_none _ h]

/-- C22. Failure-tolerant numeric parse: an inventory store line `a,b,c,d,e` (at
least four commas, the first four fields comma-free) is loaded as a record
whatever its quantity token `c` and cost token `e` are: name `a`, category `b`
and unit `d` come from the line, the two amounts are what `safeStod` returns for
`c` and `e`, which is 0 for a token that is not a number (after white space and
an optional sign it starts with neither a digit, a point and a digit, `inf` nor
`nan`), the count goes up by one and the loop goes on with the next line. -/
theorem loadInventory_tolerates_bad_numbers (a b c d e rest : Str) (n i : Nat)
    (t : Inventory)
    (ha : ',' ∉ a) (hb : ',' ∉ b) (hc : ',' ∉ c) (hd : ',' ∉ d)
    (hnl : '\n' ∉ a ++ ',' :: (b ++ ',' :: (c ++ ',' :: (d ++ ',' :: e))))
    (hlen : (a ++ ',' :: (b ++ ',' :: (c ++ ',' :: (d ++ ',' :: e)))).length < NPOS) :
    loadInventoryLoop (n + 1) i
        ((a ++ ',' :: (b ++ ',' :: (c ++ ',' :: (d ++ ',' :: e)))) ++ '\n' :: rest) t
      = loadInventoryLoop n (i + 1) rest
          { names := t.names.set i a
            cats := t.cats.set i b
            qtys := t.qtys.set i (safeStod c)
            units := t.units.set i d
            costs := t.costs.set i (safeStod e)
            count := t.count + 1 } ∧
    (notNumber c → safeStod c = 0) ∧
    (notNumber e → safeStod e = 0) := by
  refine ⟨?_, ?_, ?_⟩
  · conv_lhs => unfold loadInventoryLoop
    rw [getline_line _ _ hnl]
    simp only
    rw [loadInventoryLine_fields a b c d e i t ha hb hc hd hlen]
  · intro h
    simp only [safeStod, stod_notNumber c h]
  · intro h
    simp only [safeStod, stod_notNumber e h]

/-- Witness for C22: the line `Widget,Structure,abc,pcs,0.01` followed by a
second line. The token `abc` is not a number; the two lines are loaded as the
records (Widget, Structure, 0, pcs, 0.01) and (Bolt, Structure, 4, pcs, 2). -/
theorem loadInventory_tolerates_bad_numbers_witness :
    (loadInventoryLoop (1 + 1) 0
        (("Widget".toList ++ ',' :: ("Structure".toList ++ ',' :: ("abc".toList ++ ',' ::
          ("pcs".toList ++ ',' :: "0.01".toList)))) ++ '\n' :: "Bolt,Structure,4,pcs,2\n".toList)
        Inventory.empty
      = loadInventoryLoop 1 (0 + 1) "Bolt,Structure,4,pcs,2\n".toList
          { names := Inventory.empty.names.set 0 "Widget".toList
            cats := Inventory.empty.cats.set 0 "Structure".toList
            qtys := Inventory.empty.qtys.set 0 (safeStod "abc".toList)
            units := Inventory.empty.units.set 0 "pcs".toList
            costs := Inventory.empty.costs.set 0 (safeStod "0.01".toList)
            count := Inventory.empty.count + 1 } ∧
      (notNumber "abc".toList → safeStod "abc".toList = 0) ∧
      (notNumber "0.01".toList → safeStod "0.01".toList = 0)) ∧
    notNumber "abc".toList ∧
    (loadInventoryLoop 2 0 "Widget,Structure,abc,pcs,0.01\nBolt,Structure,4,pcs,2\n".toList
        Inventory.empty).count = 2 ∧
    (loadInventoryLoop 2 0 "Widget,Structure,abc,pcs,0.01\nBolt,Structure,4,pcs,2\n".toList
        Inventory.empty).recordAt 0
      = ("Widget".toList, "Structure".toList, 0, "pcs".toList, 1 / 100) ∧
    (loadInventoryLoop 2 0 "Widget,Structure,abc,pcs,0.01\nBolt,Structure,4,pcs,2\n".toList
        Inventory.empty).recordAt 1
      = ("Bolt".toList, "Structure".toList, 4, "pcs".toList, 2) :=
  ⟨loadInventory_tolerates_bad_numbers "Widget".toList "Structure".toList "abc".toList
    "pcs".toList "0.01".toList "Bolt,Structure,4,pcs,2\n".toList 1 0 Inventory.empty
    (by decide) (by decide) (by decide) (by decide) (by decide) (by decide),
    (show startsNumber (readSign "abc".toList).2 = false by decide), by decide!, by decide!,
    by decide!⟩

/-! ## Mission invariants and launch -/

/-- C23 (evaluation). `flight_DeleteMission` shifts the costs but not the budgets:
the three seed missions all have cost <= budget, and after deleting id 1 the
mission at position 1 (below the new count 2) has cost 0.2 and budget 0.1. -/
theorem flight_DeleteMission_breaks_cost_le_budget :
    (∀ j : Nat, j < 3 → seedMissions.costs j ≤ seedMissions.budgets j) ∧
    ∃ t1, flight_DeleteMission [1] seedMissions = some t1 ∧
      t1.count = 2 ∧ t1.costs 1 = 2 / 10 ∧ t1.budgets 1 = 1 / 10 ∧
      ¬ (t1.costs 1 ≤ t1.budgets 1) := by
  refine ⟨?_, { missionShift 2 0 seedMissions with count := 2 }, rfl, rfl, ?_, ?_, ?_⟩
  · intro j hj
    interval_cases j <;> simp [seedMissions] <;> decide!
  · simp [missionShift_eq, shiftArr_apply, seedMissions]
  · simp [missionShift_eq, shiftArr_apply, seedMissions]
  · simp [missionShift_eq, shiftArr_apply, seedMissions]
    decide!

/-- C24. Launch is gated by funding: when the selected mission has status
"Pending", `sim_Launch` returns the mission table, the log and the stores
unchanged, whatever the draws; and whenever `sim_Launch` returns, a mission
whose status differs from the one before the call was not "Pending" before it. -/
theorem sim_Launch_gated (showDouble : Money → Str) (ids : List Int) (draws : Nat → Nat)
    (t : Missions) (agencyBudget : Money) (l : Logs) (fs : Files) :
    (∀ id : Int, getInt 1 t.count ids = some id →
      t.status (id - 1).toNat = "Pending".toList →
      sim_Launch showDouble ids draws t agencyBudget l fs = some (t, l, fs)) ∧
    (∀ t1 l1 fs1, sim_Launch showDouble ids draws t agencyBudget l fs = some (t1, l1, fs1) →
      ∀ j : Nat, t1.status j ≠ t.status j → t.status j ≠ "Pending".toList) := by
  constructor
  · intro id hid hpend
    unfold sim_Launch
    split
    · rfl
    · rw [hid]
      simp only
      rw [if_pos hpend]
  · intro t1 l1 fs1 hs j hj
    unfold sim_Launch at hs
    split at hs
    · cases hs; exact absurd rfl hj
    · cases hg : getInt 1 t.count ids with
      | none => rw [hg] at hs; cases hs
      | some id =>
        rw [hg] at hs
        simp only at hs
        by_cases hp : t.status (id - 1).toNat = "Pending".toList
        · rw [if_pos hp] at hs
          cases hs
          exact absurd rfl hj
        · rw [if_neg hp] at hs
          have hidx : j = (id - 1).toNat := by
            by_contra hne
            apply hj
            split at hs <;> (cases hs; simp only [Arr.set, if_neg hne])
          rw [hidx]
          exact hp

/-- Witness for C24: the pending mission 4 is selected. -/
theorem sim_Launch_gated_witness :
    (∀ id : Int, getInt 1 pendingMissions.count [4] = some id →
      pendingMissions.status (id - 1).toNat = "Pending".toList →
      sim_Launch showNothing [4] (fun _ => 7) pendingMissions 50 Logs.empty Files.absent
        = some (pendingMissions, Logs.empty, Files.absent)) ∧
    (∀ t1 l1 fs1,
      sim_Launch showNothing [4] (fun _ => 7) pendingMissions 50 Logs.empty Files.absent
        = some (t1, l1, fs1) →
      ∀ j : Nat, t1.status j ≠ pendingMissions.status j →
        pendingMissions.status j ≠ "Pending".toList) :=
  sim_Launch_gated showNothing [4] (fun _ => 7) pendingMissions 50 Logs.empty Files.absent

/-- C30 (evaluation). `admin_Missions` does not look at the status of the
selected mission: with agency budget 50, selecting seed mission 1, whose status
is "Success", debits its budget 0.1 and sets its status to "Planned". -/
theorem admin_Missions_funds_launched_mission (showDouble : Money → Str) :
    seedMissions.status 0 = "Success".toList ∧
    ∃ t1 l1 fs1,
      admin_Missions showDouble [1] seedMissions 50 Logs.empty Files.absent
        = some (t1, 50 - 1 / 10, l1, fs1) ∧
      t1.status 0 = "Planned".toList ∧ (50 : Money) - 1 / 10 ≠ 50 := by
  refine ⟨by decide, ?_⟩
  have hb : seedMissions.budgets ((1 : Int) - 1).toNat = 1 / 10 := rfl
  have hle : (50 : Money) ≥ seedMissions.budgets ((1 : Int) - 1).toNat := by
    rw [hb]; decide!
  have hg : getInt 0 seedMissions.count [1] = some 1 := rfl
  simp only [admin_Missions, hg, if_neg (by decide : ¬ ((1 : Int) = 0)), if_pos hle]
  exact ⟨_, _, _, rfl, rfl, by decide!⟩

/-! ## Sign-in, username rule, admin-panel saves, session count -/

theorem signInLoop_spec (username password : Str) (usernames passwords : Arr Str) (n : Nat) :
    ∀ i : Nat,
      (signInLoop username password usernames passwords n i = -1 ∧
        ∀ j, i ≤ j → j < i + n → ¬ (usernames j = username ∧ passwords j = password)) ∨
      (∃ k : Nat, signInLoop username password usernames passwords n i = (k : Int) ∧
        i ≤ k ∧ k < i + n ∧ (usernames k = username ∧ passwords k = password) ∧
        ∀ j, i ≤ j → j < k → ¬ (usernames j = username ∧ passwords j = password)) := by
  induction n with
  | zero =>
    intro i
    left
    exact ⟨rfl, fun j h1 h2 => by omega⟩
  | succ n ih =>
    intro i
    unfold signInLoop
    by_cases hm : usernames i = username ∧ passwords i = password
    · right
      rw [if_pos hm]
      exact ⟨i, rfl, Nat.le_refl _, by omega, hm, fun j h1 h2 => by omega⟩
    · rw [if_neg hm]
      rcases ih (i + 1) with ⟨h1, h2⟩ | ⟨k, h1, h2, h3, h4, h5⟩
      · left
        refine ⟨h1, ?_⟩
        intro j hj1 hj2
        by_cases hji : j = i
        · rw [hji]; exact hm
        · exact h2 j (by omega) (by omega)
      · right
        refine ⟨k, h1, by omega, by omega, h4, ?_⟩
        intro j hj1 hj2
        by_cases hji : j = i
        · rw [hji]; exact hm
        · exact h5 j (by omega) hj2

theorem signIn_spec_nat (username password : Str) (usernames passwords : Arr Str)
    (l : Logs) (n : Nat) :
    (∀ i : Nat, (signIn username password usernames passwords (n : Int) l).1 = (i : Int) ↔
      (i < n ∧ (usernames i = username ∧ passwords i = password) ∧
        ∀ j, j < i → ¬ (usernames j = username ∧ passwords j = password))) ∧
    ((signIn username password usernames passwords (n : Int) l).1 = -1 ↔
      ∀ i, i < n → ¬ (usernames i = username ∧ passwords i = password)) ∧
    (signIn username password usernames passwords (n : Int) l).2 = (usernames, passwords, l) := by
  have hs : (signIn username password usernames passwords (n : Int) l).1
      = signInLoop username password usernames passwords n 0 := by
    simp [signIn]
  rw [hs]
  refine ⟨?_, ?_, rfl⟩
  · intro i
    rcases signInLoop_spec username password usernames passwords n 0 with
      ⟨h1, h2⟩ | ⟨k, h1, _, h3, h4, h5⟩
    · rw [h1]
      constructor
      · intro h; omega
      · intro ⟨hi, hm, _⟩
        exact absurd hm (h2 i (Nat.zero_le _) (by omega))
    · rw [h1]
      constructor
      · intro h
        have hki : k = i := by omega
        subst hki
        exact ⟨by omega, h4, fun j hj => h5 j (Nat.zero_le _) hj⟩
      · intro ⟨hi, hm, hmin⟩
        have hki : k = i := by
          rcases Nat.lt_trichotomy k i with h | h | h
          · exact absurd h4 (hmin k h)
          · exact h
          · exact absurd hm (h5 i (Nat.zero_le _) h)
        rw [hki]
  · rcases signInLoop_spec username password usernames passwords n 0 with
      ⟨h1, h2⟩ | ⟨k, h1, _, h3, h4, _⟩
    · rw [h1]
      constructor
      · intro _ i hi
        exact h2 i (Nat.zero_le _) (by omega)
      · intro _; rfl
    · rw [h1]
      constructor
      · intro h; omega
      · intro h
        exact absurd h4 (h k (by omega))

/-- C26. Sign-in is plaintext credential matching: for every user table and
count, `signIn` returns an index `i` exactly when `i` is the least position
below the count whose username and password both equal the given ones, returns
-1 exactly when there is no such position, and hands back the arrays and the
log unchanged. -/
theorem signIn_least_match (username password : Str) (usernames passwords : Arr Str)
    (count : Int) (l : Logs) :
    (∀ i : Nat, (signIn username password usernames passwords count l).1 = (i : Int) ↔
      ((i : Int) < count ∧ (usernames i = username ∧ passwords i = password) ∧
        ∀ j, j < i → ¬ (usernames j = username ∧ passwords j = password))) ∧
    ((signIn username password usernames passwords count l).1 = -1 ↔
      ∀ i : Nat, (i : Int) < count → ¬ (usernames i = username ∧ passwords i = password)) ∧
    (signIn username password usernames passwords count l).2 = (usernames, passwords, l) := by
  have hsame : signIn username password usernames passwords count l
      = signIn username password usernames passwords ((count.toNat : Nat) : Int) l := by
    unfold signIn
    rw [Int.toNat_ofNat]
  have hlt : ∀ i : Nat, i < count.toNat ↔ (i : Int) < count := by
    intro i; omega
  obtain ⟨h1, h2, h3⟩ := signIn_spec_nat username password usernames passwords l count.toNat
  rw [hsame]
  refine ⟨?_, ?_, h3⟩
  · intro i
    rw [h1 i, hlt i]
  · rw [h2]
    constructor
    · intro h i hi
      exact h i ((hlt i).mpr hi)
    · intro h i hi
      exact h i ((hlt i).mp hi)

/-- C27 (evaluation). `isValidUsername` accepts only small letters and digits:
"Orion77", seven letters and digits, is rejected because of its capital letter,
while "orion77" is accepted. -/
theorem isValidUsername_rejects_capitals :
    isValidUsername "Orion77".toList = false ∧ isValidUsername "orion77".toList = true ∧
    "Orion77".toList.length = 7 ∧
    "Orion77".toList.all (fun c => c.isAlpha || c.isDigit) = true := by
  decide

/-- C28 (evaluation). Both `saveUsers` calls of `admin_Personnel` reached from
`dashboard_Admin` run with `departments == nullptr`: editing the role of user 2
and deleting user 2 of the three seed users each end in the null dereference
inside `saveUsers`, and the argument pack that `dashboard_Admin` hands over has
no departments column. -/
theorem dashboard_Admin_saves_without_departments :
    (∃ s, dashboard_Admin_personnel 'e' [2] "engineer".toList sampleUsers Logs.empty
        Files.absent = Run.fault s) ∧
    (∃ s, dashboard_Admin_personnel 'd' [2] [] sampleUsers Logs.empty Files.absent
        = Run.fault s) ∧
    (∃ a l fs, admin_Personnel 'e' [2] "engineer".toList
        ⟨sampleUsers.usernames, sampleUsers.passwords, sampleUsers.roles, none,
          sampleUsers.count⟩ Logs.empty Files.absent = Run.fault (a, l, fs) ∧
      a.departments = none ∧ a.roles 1 = "engineer".toList) ∧
    saveUsers_nullDepartments 3 Files.absent = none :=
  ⟨⟨_, rfl⟩, ⟨_, rfl⟩, ⟨_, _, _, rfl, rfl, by decide⟩, rfl⟩

/-- C29 (evaluation). `main` passes `userCount` to `dashboard_Main` by value. With
a single user "boss01" in the table, deleting id 1 in the admin panel makes the
count of the panel 0 and writes the header 0 to the user store, while the
session returns to `main` with its count still 1. -/
theorem dashboard_Main_keeps_stale_count :
    (∃ t1 l1 fs1,
      dashboard_Admin_personnel 'd' [1] [] soloUsers Logs.empty Files.absent
        = Run.ret (t1, l1, fs1) ∧
      t1.count = 0 ∧ fs1.users = some "0\n".toList) ∧
    (∃ t2 l2 fs2,
      dashboard_Main_personnel 'd' [1] [] soloUsers Logs.empty Files.absent
        = Run.ret (t2, l2, fs2) ∧
      t2.count = 1 ∧ fs2.users = some "0\n".toList ∧
      (loadUsers fs2 Users.empty).count = 0) :=
  ⟨⟨_, _, _, rfl, rfl, by decide⟩, ⟨_, _, _, rfl, rfl, by decide, by decide⟩⟩

/-! ## Hiring approval -/

theorem find?_range'_least (p : Nat → Bool) (n : Nat) : ∀ (i k : Nat), i ≤ k → k < i + n →
    p k = true → (∀ j, i ≤ j → j < k → p j = false) →
    (List.range' i n).find? p = some k := by
  induction n with
  | zero => intro i k h1 h2; omega
  | succ n ih =>
    intro i k h1 h2 hk hmin
    rw [List.range'_succ, List.find?_cons]
    by_cases hik : i = k
    · subst hik
      rw [hk]
    · rw [hmin i (Nat.le_refl _) (by omega)]
      exact ih (i + 1) k (by omega) (by omega) hk (fun j hj1 hj2 => hmin j (by omega) hj2)

theorem findApplicant_least (usernames : Arr Str) (userLimit : Int) (applicant : Str) (k : Nat)
    (hk : (k : Int) < userLimit) (hu : usernames k = applicant)
    (hmin : ∀ j, j < k → usernames j ≠ applicant) :
    findApplicant usernames userLimit applicant = some k := by
  unfold findApplicant
  rw [List.range_eq_range']
  apply find?_range'_least _ _ 0 k (Nat.zero_le _) (by omega)
  · simpa using hu
  · intro j _ hj
    simpa using hmin j hj

theorem findApplicant_none (usernames : Arr Str) (userLimit : Int) (applicant : Str)
    (hno : ∀ j : Nat, (j : Int) < userLimit → usernames j ≠ applicant) :
    findApplicant usernames userLimit applicant = none := by
  unfold findApplicant
  rw [List.find?_eq_none]
  intro j hj
  rw [List.mem_range] at hj
  simpa using hno j (by omega)

/-- C25. Hiring approval copies fields into the target tables. For an approve
action on application `idx` (the id typed minus one) with a roster of `n`
astronauts: when `k` is the first position below the user count whose username
is the applicant's, `roles[k]` becomes the application's target role, the status
of the application becomes "Approved", and, if the target role is "astronaut"
and `n < MAX_ASTRO`, the record (full name, "Recruit", "Active") is appended at
position `n` of the roster; every other role, every other field of the hiring
table and every other roster record is unchanged, and without that append the
roster is unchanged. When no user below the user count has the applicant's
username, everything is returned unchanged. -/
theorem admin_Hiring_approve (c : Char) (ids : List Int) (usernames roles : Arr Str)
    (userLimit : Int) (h : Hires) (a : Astronauts) (l : Logs) (fs : Files) (id : Int) (n : Nat)
    (hc : c = 'a' ∨ c = 'A') (hid : getInt 1 h.count ids = some id)
    (hn : a.count = (n : Int)) :
    (∀ k : Nat, (k : Int) < userLimit → usernames k = h.users (id - 1).toNat →
      (∀ j, j < k → usernames j ≠ h.users (id - 1).toNat) →
      ∃ roles1 h1 a1 l1 fs1,
        admin_Hiring c ids usernames roles userLimit h a l fs = some (roles1, h1, a1, l1, fs1) ∧
        roles1 k = h.roles (id - 1).toNat ∧ (∀ j, j ≠ k → roles1 j = roles j) ∧
        h1.status (id - 1).toNat = "Approved".toList ∧
        (∀ j, j ≠ (id - 1).toNat → h1.status j = h.status j) ∧
        h1.users = h.users ∧ h1.roles = h.roles ∧ h1.exp = h.exp ∧ h1.names = h.names ∧
        h1.edu = h.edu ∧ h1.count = h.count ∧
        ((h.roles (id - 1).toNat = "astronaut".toList ∧ a.count < MAX_ASTRO) →
          a1.count = (n : Int) + 1 ∧ a1.names n = h.names (id - 1).toNat ∧
          a1.ranks n = "Recruit".toList ∧ a1.status n = "Active".toList ∧
          ∀ j, j ≠ n →
            a1.names j = a.names j ∧ a1.ranks j = a.ranks j ∧ a1.status j = a.status j) ∧
        (¬ (h.roles (id - 1).toNat = "astronaut".toList ∧ a.count < MAX_ASTRO) → a1 = a)) ∧
    ((∀ j : Nat, (j : Int) < userLimit → usernames j ≠ h.users (id - 1).toNat) →
      admin_Hiring c ids usernames roles userLimit h a l fs = some (roles, h, a, l, fs)) := by
  have hb : ¬ (c = 'b' ∨ c = 'B') := by
    rcases hc with hc | hc <;> subst hc <;> decide
  have hidx : a.count.toNat = n := by rw [hn]; simp
  constructor
  · intro k hk hu hmin
    have hfind := findApplicant_least usernames userLimit _ k hk hu hmin
    unfold admin_Hiring
    rw [if_neg hb, if_pos hc, hid]
    simp only [hfind]
    by_cases hr : h.roles (id - 1).toNat = "astronaut".toList
    · by_cases hcap : a.count < MAX_ASTRO
      · rw [if_pos hr, if_pos hcap]
        refine ⟨_, _, _, _, _, rfl, ?_, ?_, ?_, ?_, rfl, rfl, rfl, rfl, rfl, rfl, ?_, ?_⟩
        · simp [Arr.set]
        · intro j hj; simp [Arr.set, hj]
        · simp [Arr.set]
        · intro j hj; simp only [Arr.set, if_neg hj]
        · intro _
          simp only [hidx]
          refine ⟨by rw [hn], by simp [Arr.set], by simp [Arr.set], by simp [Arr.set], ?_⟩
          intro j hj
          simp [Arr.set, hj]
        · intro hnot
          exact absurd ⟨hr, hcap⟩ hnot
      · rw [if_pos hr, if_neg hcap]
        refine ⟨_, _, _, _, _, rfl, ?_, ?_, ?_, ?_, rfl, rfl, rfl, rfl, rfl, rfl, ?_, ?_⟩
        · simp [Arr.set]
        · intro j hj; simp [Arr.set, hj]
        · simp [Arr.set]
        · intro j hj; simp only [Arr.set, if_neg hj]
        · intro hboth
          exact absurd hboth.2 hcap
        · intro _; rfl
    · rw [if_neg hr]
      refine ⟨_, _, _, _, _, rfl, ?_, ?_, ?_, ?_, rfl, rfl, rfl, rfl, rfl, rfl, ?_, ?_⟩
      · simp [Arr.set]
      · intro j hj; simp [Arr.set, hj]
      · simp [Arr.set]
      · intro j hj; simp only [Arr.set, if_neg hj]
      · intro hboth
        exact absurd hboth.1 hr
      · intro _; rfl
  · intro hno
    have hfind := findApplicant_none usernames userLimit _ hno
    unfold admin_Hiring
    rw [if_neg hb, if_pos hc, hid]
    simp only [hfind]

/-- Witness for C25: the application of "orion77" for "engineer" is approved. -/
theorem admin_Hiring_approve_witness :
    (∀ k : Nat, (k : Int) < visitorUsers.count →
      visitorUsers.usernames k = sampleHires.users ((1 : Int) - 1).toNat →
      (∀ j, j < k → visitorUsers.usernames j ≠ sampleHires.users ((1 : Int) - 1).toNat) →
      ∃ roles1 h1 a1 l1 fs1,
        admin_Hiring 'a' [1] visitorUsers.usernames visitorUsers.roles visitorUsers.count
          sampleHires Astronauts.empty Logs.empty Files.absent
          = some (roles1, h1, a1, l1, fs1) ∧
        roles1 k = sampleHires.roles ((1 : Int) - 1).toNat ∧
        (∀ j, j ≠ k → roles1 j = visitorUsers.roles j) ∧
        h1.status ((1 : Int) - 1).toNat = "Approved".toList ∧
        (∀ j, j ≠ ((1 : Int) - 1).toNat → h1.status j = sampleHires.status j) ∧
        h1.users = sampleHires.users ∧ h1.roles = sampleHires.roles ∧
        h1.exp = sampleHires.exp ∧ h1.names = sampleHires.names ∧
        h1.edu = sampleHires.edu ∧ h1.count = sampleHires.count ∧
        ((sampleHires.roles ((1 : Int) - 1).toNat = "astronaut".toList ∧
            Astronauts.empty.count < MAX_ASTRO) →
          a1.count = ((0 : Nat) : Int) + 1 ∧
          a1.names 0 = sampleHires.names ((1 : Int) - 1).toNat ∧
          a1.ranks 0 = "Recruit".toList ∧ a1.status 0 = "Active".toList ∧
          ∀ j, j ≠ 0 →
            a1.names j = Astronauts.empty.names j ∧ a1.ranks j = Astronauts.empty.ranks j ∧
            a1.status j = Astronauts.empty.status j) ∧
        (¬ (sampleHires.roles ((1 : Int) - 1).toNat = "astronaut".toList ∧
            Astronauts.empty.count < MAX_ASTRO) → a1 = Astronauts.empty)) ∧
    ((∀ j : Nat, (j : Int) < visitorUsers.count →
        visitorUsers.usernames j ≠ sampleHires.users ((1 : Int) - 1).toNat) →
      admin_Hiring 'a' [1] visitorUsers.usernames visitorUsers.roles visitorUsers.count
          sampleHires Astronauts.empty Logs.empty Files.absent
        = some (visitorUsers.roles, sampleHires, Astronauts.empty, Logs.empty, Files.absent)) :=
  admin_Hiring_approve 'a' [1] visitorUsers.usernames visitorUsers.roles visitorUsers.count
    sampleHires Astronauts.empty Logs.empty Files.absent 1 0 (Or.inl rfl) rfl rfl

end NMS
